import Mathlib

/-!
Verification of the search/filter query-construction and priority-ranked
retrieval engine of the Autoabdb backend.

The JavaScript controllers are shallowly embedded as pure Lean functions:

* strings are handled at the level of their character codes (`List Nat`);
  case folding (`lowerC`) and trimming (`trimC`) are modelled for the ASCII
  range, matching the behaviour of JS `toLowerCase`/`trim` on the data the
  endpoints handle;
* MongoDB queries are embedded as an AND-of-ORs list of field conditions,
  with `queryMatches` as their evaluation semantics; a regex built from an
  escaped literal (the only kind the code builds) denotes the literal string
  obtained by `litPat`;
* the store is a `List Record`; aggregation pipelines become
  filter / sort / skip / limit over that list, with the `$sort` stage
  embedded as an insertion sort under a lexicographic comparator;
* the `priorityNum` aggregation expression becomes a total function from the
  stored priority value (`PVal`) to an exact decimal number (`PNum`).
-/

/-- Character codes of a string (UTF-32 code points, ASCII for our data). -/
def codes (s : String) : List Nat := s.data.map Char.toNat

/-- ASCII lower-casing of one character code (JS `toLowerCase` on ASCII). -/
def lowerN (n : Nat) : Nat := if 65 ≤ n ∧ n ≤ 90 then n + 32 else n

/-- ASCII upper-casing of one character code (JS `toUpperCase` on ASCII). -/
def upperN (n : Nat) : Nat := if 97 ≤ n ∧ n ≤ 122 then n - 32 else n

/-- Lower-case a code list. -/
def lowerC (l : List Nat) : List Nat := l.map lowerN

/-- Upper-case a code list. -/
def upperC (l : List Nat) : List Nat := l.map upperN

/-- Whitespace recognised by JS `String.prototype.trim` (ASCII part). -/
def isWsC (n : Nat) : Bool := n = 32 || n = 9 || n = 10 || n = 13 || n = 11 || n = 12

/-- JS `trim`: strip whitespace from both ends. -/
def trimC (l : List Nat) : List Nat :=
  ((l.dropWhile isWsC).reverse.dropWhile isWsC).reverse

/-- `p` is a prefix of `l` (code-list version, executable). -/
def prefOf : List Nat → List Nat → Bool
  | [], _ => true
  | _ :: _, [] => false
  | a :: as, b :: bs => a == b && prefOf as bs

/-- `p` occurs as a contiguous substring of `l` (JS `includes`, regex "contains"). -/
def hasSub (p : List Nat) : List Nat → Bool
  | [] => prefOf p []
  | l@(_ :: rest) => prefOf p l || hasSub p rest

/-- The metacharacters escaped by the controllers:
`.replace(/[.*+?^$\x7b\x7d()|[\]\\]/g, ...)` (dot, star, plus, question mark,
caret, dollar, braces, parens, bar, brackets, backslash). -/
def isMetaC (n : Nat) : Bool :=
  n = 46 || n = 42 || n = 43 || n = 63 || n = 94 || n = 36 || n = 123 ||
  n = 125 || n = 40 || n = 41 || n = 124 || n = 91 || n = 93 || n = 92

/-- The controllers' regex escaping: put a backslash before each metacharacter. -/
def escapeRegex : List Nat → List Nat
  | [] => []
  | c :: rest => if isMetaC c then 92 :: c :: escapeRegex rest else c :: escapeRegex rest

/-- Reading off the literal string denoted by a regex pattern in which every
backslash escapes the following character and every unescaped character is
literal (the only kind of pattern the code builds).  The flag records whether
the previous character was an escaping backslash. -/
def litPatGo : Bool → List Nat → List Nat
  | _, [] => []
  | true, c :: rest => c :: litPatGo false rest
  | false, c :: rest => if c = 92 then litPatGo true rest else c :: litPatGo false rest

/-- The literal string denoted by an escaped-literal regex pattern. -/
def litPat (l : List Nat) : List Nat := litPatGo false l

theorem litPat_escapeRegex (l : List Nat) : litPat (escapeRegex l) = l := by
  unfold litPat
  induction l with
  | nil => rfl
  | cons c rest ih =>
    by_cases h : isMetaC c = true
    · simp [escapeRegex, h, litPatGo, ih]
    · have hc : ¬ c = 92 := by
        intro hce; subst hce; simp [isMetaC] at h
      simp [escapeRegex, h, litPatGo, hc, ih]

/-! ### Substring facts -/

theorem prefOf_iff (p l : List Nat) : prefOf p l = true ↔ p <+: l := by
  induction p generalizing l with
  | nil => simp [prefOf]
  | cons a as ih =>
    cases l with
    | nil => simp [prefOf]
    | cons b bs =>
      show (a == b && prefOf as bs) = true ↔ _
      rw [Bool.and_eq_true, beq_iff_eq, ih, List.cons_prefix_cons]

theorem hasSub_iff (p l : List Nat) : hasSub p l = true ↔ p <:+: l := by
  induction l with
  | nil =>
    cases p with
    | nil => simp [hasSub, prefOf]
    | cons a as => simp [hasSub, prefOf]
  | cons b bs ih =>
    show (prefOf p (b :: bs) || hasSub p bs) = true ↔ _
    rw [Bool.or_eq_true, prefOf_iff, ih, List.infix_cons_iff]

theorem hasSub_trans {p q l : List Nat} (h1 : hasSub p q = true)
    (h2 : hasSub q l = true) : hasSub p l = true := by
  rw [hasSub_iff] at *
  exact h1.trans h2

/-! ### Lawful comparators

A comparator is lawful when it is oriented (swapping the arguments swaps the
verdict) and its `isLE` relation is transitive: exactly what the sortedness
proofs about the embedded `$sort` stages need. -/

def LawfulCmp {α : Type} (c : α → α → Ordering) : Prop :=
  (∀ a b, c a b = (c b a).swap) ∧
  (∀ a b d, (c a b).isLE = true → (c b d).isLE = true → (c a d).isLE = true)

theorem isLE_of_lt {o : Ordering} (h : o = .lt) : o.isLE = true := by
  rw [h]; rfl

theorem isLE_of_eq {o : Ordering} (h : o = .eq) : o.isLE = true := by
  rw [h]; rfl

theorem not_isLE_gt {o : Ordering} (h : o = .gt) : o.isLE = false := by
  rw [h]; rfl

theorem LawfulCmp.eq_symm {α : Type} {c : α → α → Ordering} (hc : LawfulCmp c)
    {a b : α} (h : c a b = .eq) : c b a = .eq := by
  have hs := hc.1 a b
  rw [h] at hs
  rcases hw : c b a with _ | _ | _
  · rw [hw] at hs; exact absurd hs (by decide)
  · rfl
  · rw [hw] at hs; exact absurd hs (by decide)

theorem LawfulCmp.gt_of_lt {α : Type} {c : α → α → Ordering} (hc : LawfulCmp c)
    {a b : α} (h : c a b = .lt) : c b a = .gt := by
  have hs := hc.1 a b
  rw [h] at hs
  rcases hw : c b a with _ | _ | _
  · rw [hw] at hs; exact absurd hs (by decide)
  · rw [hw] at hs; exact absurd hs (by decide)
  · rfl

theorem LawfulCmp.lt_of_gt {α : Type} {c : α → α → Ordering} (hc : LawfulCmp c)
    {a b : α} (h : c a b = .gt) : c b a = .lt := by
  have hs := hc.1 a b
  rw [h] at hs
  rcases hw : c b a with _ | _ | _
  · rfl
  · rw [hw] at hs; exact absurd hs (by decide)
  · rw [hw] at hs; exact absurd hs (by decide)

theorem LawfulCmp.total {α : Type} {c : α → α → Ordering} (hc : LawfulCmp c)
    (a b : α) : (c a b).isLE = true ∨ (c b a).isLE = true := by
  rcases h : c a b with _ | _ | _
  · left; rfl
  · left; rfl
  · right
    rw [hc.lt_of_gt h]
    rfl

/-- In a lawful comparator, `lt` composed with `isLE` stays `lt`. -/
theorem LawfulCmp.lt_le {α : Type} {c : α → α → Ordering} (hc : LawfulCmp c)
    {a b d : α} (h1 : c a b = .lt) (h2 : (c b d).isLE = true) : c a d = .lt := by
  have hle : (c a d).isLE = true := hc.2 a b d (isLE_of_lt h1) h2
  rcases hz : c a d with _ | _ | _
  · rfl
  · exfalso
    have hda : (c d a).isLE = true := isLE_of_eq (hc.eq_symm hz)
    have hba : (c b a).isLE = true := hc.2 b d a h2 hda
    rw [hc.gt_of_lt h1] at hba
    simp [Ordering.isLE] at hba
  · rw [hz] at hle
    simp [Ordering.isLE] at hle

/-- In a lawful comparator, `isLE` composed with `lt` stays `lt`. -/
theorem LawfulCmp.le_lt {α : Type} {c : α → α → Ordering} (hc : LawfulCmp c)
    {a b d : α} (h1 : (c a b).isLE = true) (h2 : c b d = .lt) : c a d = .lt := by
  have hle : (c a d).isLE = true := hc.2 a b d h1 (isLE_of_lt h2)
  rcases hz : c a d with _ | _ | _
  · rfl
  · exfalso
    have hda : (c d a).isLE = true := isLE_of_eq (hc.eq_symm hz)
    have hdb : (c d b).isLE = true := hc.2 d a b hda h1
    rw [hc.gt_of_lt h2] at hdb
    simp [Ordering.isLE] at hdb
  · rw [hz] at hle
    simp [Ordering.isLE] at hle

theorem LawfulCmp.eq_trans {α : Type} {c : α → α → Ordering} (hc : LawfulCmp c)
    {a b d : α} (h1 : c a b = .eq) (h2 : c b d = .eq) : c a d = .eq := by
  have hle : (c a d).isLE = true := hc.2 a b d (isLE_of_eq h1) (isLE_of_eq h2)
  rcases hz : c a d with _ | _ | _
  · exfalso
    have hda : c d a = .gt := hc.gt_of_lt hz
    have hdb : (c d b).isLE = true := isLE_of_eq (hc.eq_symm h2)
    have hba : (c b a).isLE = true := isLE_of_eq (hc.eq_symm h1)
    have : (c d a).isLE = true := hc.2 d b a hdb hba
    rw [hda] at this
    simp [Ordering.isLE] at this
  · rfl
  · rw [hz] at hle
    simp [Ordering.isLE] at hle

/-- Lexicographic composition (`Ordering.then`) of lawful comparators is lawful. -/
theorem LawfulCmp.thenCmp {α : Type} {c1 c2 : α → α → Ordering}
    (h1 : LawfulCmp c1) (h2 : LawfulCmp c2) :
    LawfulCmp (fun a b => (c1 a b).then (c2 a b)) := by
  constructor
  · intro a b
    show (c1 a b).then (c2 a b) = ((c1 b a).then (c2 b a)).swap
    rw [h1.1 a b, h2.1 a b]
    cases c1 b a <;> cases c2 b a <;> rfl
  · intro a b d hab hbd
    replace hab : ((c1 a b).then (c2 a b)).isLE = true := hab
    replace hbd : ((c1 b d).then (c2 b d)).isLE = true := hbd
    show ((c1 a d).then (c2 a d)).isLE = true
    rcases hx : c1 a b with _ | _ | _ <;> rw [hx] at hab
    · -- first key strictly less on (a,b)
      have hbdLE : (c1 b d).isLE = true := by
        rcases hy : c1 b d with _ | _ | _ <;> rw [hy] at hbd
        · rfl
        · rfl
        · simp [Ordering.then, Ordering.isLE] at hbd
      rw [h1.lt_le hx hbdLE]
      rfl
    · rcases hy : c1 b d with _ | _ | _ <;> rw [hy] at hbd
      · rw [h1.le_lt (isLE_of_eq hx) hy]
        rfl
      · rw [h1.eq_trans hx hy]
        simp only [Ordering.then] at hab hbd ⊢
        exact h2.2 a b d hab hbd
      · simp [Ordering.then, Ordering.isLE] at hbd
    · simp [Ordering.then, Ordering.isLE] at hab

/-- Comparator on `Nat`. -/
def cmpN (a b : Nat) : Ordering :=
  if a < b then .lt else if a = b then .eq else .gt

/-- Comparator on `Int`. -/
def cmpI (a b : Int) : Ordering :=
  if a < b then .lt else if a = b then .eq else .gt

theorem cmpN_isLE_iff {a b : Nat} : (cmpN a b).isLE = true ↔ a ≤ b := by
  rcases lt_trichotomy a b with h | h | h
  · simp [cmpN, h, Ordering.isLE, h.le]
  · subst h; simp [cmpN, Ordering.isLE]
  · simp [cmpN, not_lt.mpr h.le, h.ne', Ordering.isLE, not_le.mpr h]

theorem cmpN_eq_lt_iff {a b : Nat} : cmpN a b = .lt ↔ a < b := by
  rcases lt_trichotomy a b with h | h | h
  · simp [cmpN, h]
  · subst h; simp [cmpN]
  · simp [cmpN, not_lt.mpr h.le, h.ne', not_lt.mpr h.le]

theorem cmpN_eq_eq_iff {a b : Nat} : cmpN a b = .eq ↔ a = b := by
  rcases lt_trichotomy a b with h | h | h
  · simp [cmpN, h, h.ne]
  · subst h; simp [cmpN]
  · simp [cmpN, not_lt.mpr h.le, h.ne']

theorem cmpN_symm (a b : Nat) : cmpN a b = (cmpN b a).swap := by
  rcases lt_trichotomy a b with h | h | h
  · simp [cmpN, h, not_lt.mpr h.le, h.ne, h.ne', Ordering.swap]
  · subst h; simp [cmpN, Ordering.swap]
  · simp [cmpN, h, not_lt.mpr h.le, h.ne, h.ne', Ordering.swap]

theorem cmpN_lawful : LawfulCmp cmpN :=
  ⟨cmpN_symm, fun a b d hab hbd => by
    rw [cmpN_isLE_iff] at hab hbd ⊢
    exact hab.trans hbd⟩

theorem cmpI_isLE_iff {a b : Int} : (cmpI a b).isLE = true ↔ a ≤ b := by
  rcases lt_trichotomy a b with h | h | h
  · simp [cmpI, h, Ordering.isLE, h.le]
  · subst h; simp [cmpI, Ordering.isLE]
  · simp [cmpI, not_lt.mpr h.le, h.ne', Ordering.isLE, not_le.mpr h]

theorem cmpI_eq_lt_iff {a b : Int} : cmpI a b = .lt ↔ a < b := by
  rcases lt_trichotomy a b with h | h | h
  · simp [cmpI, h]
  · subst h; simp [cmpI]
  · simp [cmpI, not_lt.mpr h.le, h.ne', not_lt.mpr h.le]

theorem cmpI_symm (a b : Int) : cmpI a b = (cmpI b a).swap := by
  rcases lt_trichotomy a b with h | h | h
  · simp [cmpI, h, not_lt.mpr h.le, h.ne, h.ne', Ordering.swap]
  · subst h; simp [cmpI, Ordering.swap]
  · simp [cmpI, h, not_lt.mpr h.le, h.ne, h.ne', Ordering.swap]

theorem cmpI_lawful : LawfulCmp cmpI :=
  ⟨cmpI_symm, fun a b d hab hbd => by
    rw [cmpI_isLE_iff] at hab hbd ⊢
    exact hab.trans hbd⟩

/-- Lexicographic comparator on code lists (MongoDB string comparison,
restricted to the ASCII data the endpoints handle). -/
def cmpCodes : List Nat → List Nat → Ordering
  | [], [] => .eq
  | [], _ :: _ => .lt
  | _ :: _, [] => .gt
  | a :: as, b :: bs => (cmpN a b).then (cmpCodes as bs)

theorem cmpCodes_symm (a b : List Nat) : cmpCodes a b = (cmpCodes b a).swap := by
  induction a generalizing b with
  | nil => cases b <;> rfl
  | cons x xs ih =>
    cases b with
    | nil => rfl
    | cons y ys =>
      show (cmpN x y).then (cmpCodes xs ys) = ((cmpN y x).then (cmpCodes ys xs)).swap
      rw [cmpN_lawful.1 x y, ih ys]
      cases cmpN y x <;> cases cmpCodes ys xs <;> rfl

theorem cmpCodes_isLE_trans (a b d : List Nat)
    (hab : (cmpCodes a b).isLE = true) (hbd : (cmpCodes b d).isLE = true) :
    (cmpCodes a d).isLE = true := by
  induction a generalizing b d with
  | nil => cases d <;> rfl
  | cons x xs ih =>
    cases b with
    | nil => simp [cmpCodes, Ordering.isLE] at hab
    | cons y ys =>
      cases d with
      | nil => simp [cmpCodes, Ordering.isLE] at hbd
      | cons z zs =>
        show ((cmpN x z).then (cmpCodes xs zs)).isLE = true
        have hab' : ((cmpN x y).then (cmpCodes xs ys)).isLE = true := hab
        have hbd' : ((cmpN y z).then (cmpCodes ys zs)).isLE = true := hbd
        rcases hx : cmpN x y with _ | _ | _ <;> rw [hx] at hab'
        · have hyzLE : (cmpN y z).isLE = true := by
            rcases hy : cmpN y z with _ | _ | _ <;> rw [hy] at hbd'
            · rfl
            · rfl
            · simp [Ordering.then, Ordering.isLE] at hbd'
          rw [cmpN_lawful.lt_le hx hyzLE]
          rfl
        · rcases hy : cmpN y z with _ | _ | _ <;> rw [hy] at hbd'
          · rw [cmpN_lawful.le_lt (isLE_of_eq hx) hy]
            rfl
          · rw [cmpN_lawful.eq_trans hx hy]
            simp only [Ordering.then] at hab' hbd' ⊢
            exact ih ys zs hab' hbd'
          · simp [Ordering.then, Ordering.isLE] at hbd'
        · simp [Ordering.then, Ordering.isLE] at hab'

theorem cmpCodes_lawful : LawfulCmp cmpCodes :=
  ⟨cmpCodes_symm, cmpCodes_isLE_trans⟩

/-- Comparator on optional code-valued fields: as in MongoDB sorts, a missing
field orders before any present string value. -/
def cmpOptCodes : Option (List Nat) → Option (List Nat) → Ordering
  | none, none => .eq
  | none, some _ => .lt
  | some _, none => .gt
  | some a, some b => cmpCodes a b

theorem cmpOptCodes_lawful : LawfulCmp cmpOptCodes := by
  constructor
  · intro a b
    cases a with
    | none =>
      cases b with
      | none => rfl
      | some y => rfl
    | some x =>
      cases b with
      | none => rfl
      | some y => exact cmpCodes_symm x y
  · intro a b d hab hbd
    cases a with
    | none =>
      cases d with
      | none => rfl
      | some z => rfl
    | some x =>
      cases b with
      | none => simp [cmpOptCodes, Ordering.isLE] at hab
      | some y =>
        cases d with
        | none => simp [cmpOptCodes, Ordering.isLE] at hbd
        | some z => exact cmpCodes_isLE_trans x y z hab hbd

/-! ### Exact decimal numbers: the value space of the `priorityNum` aggregation

`$toDouble` applied to a string matching `^-?\d+(\.\d+)?$` yields an exact
decimal; we represent it as `num / 10 ^ exp`. -/

structure PNum where
  num : Int
  exp : Nat
deriving DecidableEq, Repr

/-- Order comparison of two exact decimals by cross multiplication. -/
def cmpPNum (a b : PNum) : Ordering :=
  cmpI (a.num * 10 ^ b.exp) (b.num * 10 ^ a.exp)

/-- The rational value of an exact decimal (used only to state results). -/
def PNum.toRat (a : PNum) : Rat := (a.num : Rat) / (10 : Rat) ^ a.exp

theorem cmpPNum_lawful : LawfulCmp cmpPNum := by
  constructor
  · intro a b
    unfold cmpPNum
    exact cmpI_symm _ _
  · intro a b d hab hbd
    unfold cmpPNum at *
    rw [cmpI_isLE_iff] at hab hbd ⊢
    have hx : (0:Int) < 10 ^ a.exp := pow_pos (by norm_num) _
    have hy : (0:Int) < 10 ^ b.exp := pow_pos (by norm_num) _
    have hz : (0:Int) < 10 ^ d.exp := pow_pos (by norm_num) _
    have h1 := mul_le_mul_of_nonneg_right hab hz.le
    have h2 := mul_le_mul_of_nonneg_right hbd hx.le
    have key : (10:Int) ^ b.exp * (a.num * 10 ^ d.exp) ≤
        10 ^ b.exp * (d.num * 10 ^ a.exp) := by
      calc (10:Int) ^ b.exp * (a.num * 10 ^ d.exp)
          = a.num * 10 ^ b.exp * 10 ^ d.exp := by ring
        _ ≤ b.num * 10 ^ a.exp * 10 ^ d.exp := h1
        _ = b.num * 10 ^ d.exp * 10 ^ a.exp := by ring
        _ ≤ d.num * 10 ^ b.exp * 10 ^ a.exp := h2
        _ = 10 ^ b.exp * (d.num * 10 ^ a.exp) := by ring
    exact le_of_mul_le_mul_left key hy

/-- A stored `priority` value: the schema declares a string, but the
aggregation pipelines type-branch on number / string / null / missing, so all
four shapes are represented. -/
inductive PVal where
  | missing : PVal
  | null : PVal
  | num : Int → Nat → PVal
  | str : String → PVal
deriving DecidableEq, Repr

/-- ASCII digit test (regex `\d`). -/
def isDigitC (n : Nat) : Bool := 48 ≤ n && n ≤ 57

/-- One-or-more digits (regex `\d+`). -/
def digitsNE (l : List Nat) : Bool := !l.isEmpty && l.all isDigitC

/-- The aggregation's numeric-string test `^-?\d+(\.\d+)?$`:
optional minus sign, digits, optional dot followed by digits. -/
def isNumericCodes (l : List Nat) : Bool :=
  let l' := if l.head? = some 45 then l.tail else l
  let ip := l'.takeWhile (fun c => !(c == 46))
  let rest := l'.dropWhile (fun c => !(c == 46))
  match rest with
  | [] => digitsNE ip
  | 46 :: fp => digitsNE ip && digitsNE fp
  | _ => false

/-- Decimal digits to a natural number. -/
def parseDigits (l : List Nat) : Nat := l.foldl (fun a c => a * 10 + (c - 48)) 0

/-- `$toDouble` on a string that passed `isNumericCodes`. -/
def parseNumericCodes (l : List Nat) : PNum :=
  let sign : Int := if l.head? = some 45 then -1 else 1
  let l' := if l.head? = some 45 then l.tail else l
  let ip := l'.takeWhile (fun c => !(c == 46))
  let fp := (l'.dropWhile (fun c => !(c == 46))).tail
  { num := sign * ((parseDigits ip * 10 ^ fp.length + parseDigits fp : Nat) : Int),
    exp := fp.length }

/-- The `priorityNum` expression shared verbatim by the `getAllEntries`,
`searchEntries`, `getEntriesByDisease`, `getEntriesByUniprotId` and
`exportEntries` aggregation pipelines: null / empty / missing priority gives
0; a stored number is used verbatim; a numeric-looking string is parsed; any
other string gives 0. -/
def priorityNumOf : PVal → PNum
  | .missing => ⟨0, 0⟩
  | .null => ⟨0, 0⟩
  | .num n e => ⟨n, e⟩
  | .str s =>
    if s = "" then ⟨0, 0⟩
    else if isNumericCodes (codes s) then parseNumericCodes (codes s) else ⟨0, 0⟩

/-! ### The Record data model (mongoose `diseaseData` schema)

`disease`, `autoantibody`, `autoantigen`, `epitope` and `uniprotId` are
`required: true` in the schema; all other descriptive fields are optional
strings.  `createdAt`/`updatedAt` come from `timestamps: true` and are
modelled as integers; `verified` is the `metadata.verified` flag. -/

structure Record where
  disease : String
  databaseAccessionNumbers : Option String := none
  autoantibody : String
  synonym : Option String := none
  diseaseAssociation : Option String := none
  autoantigen : String
  epitope : String
  epitopePrevalence : Option String := none
  uniprotId : String
  screening : Option String := none
  confirmation : Option String := none
  monitoring : Option String := none
  affinity : Option String := none
  avidity : Option String := none
  mechanism : Option String := none
  isotypeSubclasses : Option String := none
  sensitivity : Option String := none
  diagnosticMarker : Option String := none
  associationWithDiseaseActivity : Option String := none
  positivePredictiveValues : Option String := none
  negativePredictiveValues : Option String := none
  crossReactivityPatterns : Option String := none
  pathogenesisInvolvement : Option String := none
  referenceRangesAndCutoffValues : Option String := none
  reference : Option String := none
  type : Option String := none
  priority : PVal := .missing
  createdAt : Int := 0
  updatedAt : Int := 0
  verified : Bool := false
deriving DecidableEq, Repr

/-- The searchable / filterable fields of a Record. -/
inductive FieldId where
  | disease | databaseAccessionNumbers | autoantibody | synonym | diseaseAssociation
  | autoantigen | epitope | uniprotId | screening | confirmation | monitoring
  | affinity | avidity | mechanism | isotypeSubclasses | sensitivity
  | diagnosticMarker | associationWithDiseaseActivity | positivePredictiveValues
  | negativePredictiveValues | crossReactivityPatterns | pathogenesisInvolvement
  | referenceRangesAndCutoffValues | reference | type | priority
deriving DecidableEq, Repr

/-- Reading a field as the string value a `$regex` condition would see: a
regex only matches when the stored value is a string, so a numeric / null /
missing `priority` yields `none`. -/
def getField (r : Record) : FieldId → Option String
  | .disease => some r.disease
  | .databaseAccessionNumbers => r.databaseAccessionNumbers
  | .autoantibody => some r.autoantibody
  | .synonym => r.synonym
  | .diseaseAssociation => r.diseaseAssociation
  | .autoantigen => some r.autoantigen
  | .epitope => some r.epitope
  | .uniprotId => some r.uniprotId
  | .screening => r.screening
  | .confirmation => r.confirmation
  | .monitoring => r.monitoring
  | .affinity => r.affinity
  | .avidity => r.avidity
  | .mechanism => r.mechanism
  | .isotypeSubclasses => r.isotypeSubclasses
  | .sensitivity => r.sensitivity
  | .diagnosticMarker => r.diagnosticMarker
  | .associationWithDiseaseActivity => r.associationWithDiseaseActivity
  | .positivePredictiveValues => r.positivePredictiveValues
  | .negativePredictiveValues => r.negativePredictiveValues
  | .crossReactivityPatterns => r.crossReactivityPatterns
  | .pathogenesisInvolvement => r.pathogenesisInvolvement
  | .referenceRangesAndCutoffValues => r.referenceRangesAndCutoffValues
  | .reference => r.reference
  | .type => r.type
  | .priority => match r.priority with | .str s => some s | _ => none

/-- One field condition of a MongoDB query document:
`contains f pat` is `{f: new RegExp(pat, 'i')}` for an escaped-literal `pat`;
`anchored f pat` is `{f: new RegExp('^' + pat + '$', 'i')}`;
`eqStr f v` is plain equality `{f: v}`. -/
inductive Cond where
  | contains : FieldId → List Nat → Cond
  | anchored : FieldId → List Nat → Cond
  | eqStr : FieldId → String → Cond
deriving DecidableEq, Repr

/-- Semantics of one condition on one record. -/
def condMatches (r : Record) : Cond → Bool
  | .contains f pat =>
    match getField r f with
    | some s => hasSub (lowerC (litPat pat)) (lowerC (codes s))
    | none => false
  | .anchored f pat =>
    match getField r f with
    | some s => lowerC (litPat pat) == lowerC (codes s)
    | none => false
  | .eqStr f v => getField r f == some v

/-- A query in the normal form the builder produces: a conjunction (`$and`)
of disjunctions (`$or`); a single condition is the singleton disjunction and
the empty conjunction is the match-everything query `{}`. -/
def Query := List (List Cond)

instance : DecidableEq Query := by
  unfold Query
  infer_instance

/-- Semantics of a query on one record. -/
def queryMatches (q : Query) (r : Record) : Bool :=
  q.all (fun ors => ors.any (condMatches r))

/-! ### The query builder (`buildCombinedQuery`) -/

/-- Raw request query parameters, as a name/value association list. -/
def SearchParams := List (String × String)

/-- Read a parameter: JS object access returns `undefined` for a missing key. -/
def getParam (ps : SearchParams) (n : String) : Option String :=
  List.lookup n ps

/-- The `value && value.trim()` guard used throughout the controllers: the
parameter must be present, truthy and not whitespace-only; the trimmed code
list is returned for use in the regex. -/
def getParamNB (ps : SearchParams) (n : String) : Option (List Nat) :=
  match getParam ps n with
  | none => none
  | some v =>
    if v = "" then none
    else if trimC (codes v) = [] then none
    else some (trimC (codes v))

/-- The 26 fields searched by the `field === 'all'` branch, in source order. -/
def searchFieldIds : List FieldId :=
  [.disease, .autoantibody, .autoantigen, .epitope, .uniprotId, .diseaseAssociation,
   .affinity, .avidity, .mechanism, .isotypeSubclasses, .sensitivity, .diagnosticMarker,
   .associationWithDiseaseActivity, .pathogenesisInvolvement, .reference,
   .databaseAccessionNumbers, .synonym, .screening, .confirmation, .monitoring,
   .positivePredictiveValues, .negativePredictiveValues, .crossReactivityPatterns,
   .referenceRangesAndCutoffValues, .type, .priority]

/-- The recognised field names accepted for the single-field search branch
(the `[...].includes(field)` list), mapped to their field ids. -/
def fieldIdOfName : String → Option FieldId
  | "disease" => some .disease
  | "autoantibody" => some .autoantibody
  | "autoantigen" => some .autoantigen
  | "epitope" => some .epitope
  | "uniprotId" => some .uniprotId
  | "diseaseAssociation" => some .diseaseAssociation
  | "affinity" => some .affinity
  | "avidity" => some .avidity
  | "mechanism" => some .mechanism
  | "isotypeSubclasses" => some .isotypeSubclasses
  | "sensitivity" => some .sensitivity
  | "diagnosticMarker" => some .diagnosticMarker
  | "associationWithDiseaseActivity" => some .associationWithDiseaseActivity
  | "pathogenesisInvolvement" => some .pathogenesisInvolvement
  | "reference" => some .reference
  | "databaseAccessionNumbers" => some .databaseAccessionNumbers
  | "synonym" => some .synonym
  | "screening" => some .screening
  | "confirmation" => some .confirmation
  | "monitoring" => some .monitoring
  | "positivePredictiveValues" => some .positivePredictiveValues
  | "negativePredictiveValues" => some .negativePredictiveValues
  | "crossReactivityPatterns" => some .crossReactivityPatterns
  | "referenceRangesAndCutoffValues" => some .referenceRangesAndCutoffValues
  | "type" => some .type
  | "priority" => some .priority
  | _ => none

/-- The fixed Ro52/SSA synonym conditions added to the `$or` list when the
search text triggers the expansion (regex sources `ro52`, `anti-ro52`, `ssa`,
`ro\/ssa`, `ro \(ssa\)`, `ro/ss-a`, `ro ss-a`, all on `autoantibody`). -/
def roSynonymConds : List Cond :=
  [Cond.contains .autoantibody (codes "ro52"),
   Cond.contains .autoantibody (codes "anti-ro52"),
   Cond.contains .autoantibody (codes "ssa"),
   Cond.contains .autoantibody (codes "ro\\/ssa"),
   Cond.contains .autoantibody (codes "ro \\(ssa\\)"),
   Cond.contains .autoantibody (codes "ro/ss-a"),
   Cond.contains .autoantibody (codes "ro ss-a")]

/-- The trigger for the Ro52/SSA expansion: the lowercased trimmed search
text `.includes` one of the listed substrings (`t` is the trimmed search). -/
def roTriggered (t : List Nat) : Bool :=
  hasSub (codes "ro52") (lowerC t) || hasSub (codes "anti-ro52") (lowerC t) ||
  hasSub (codes "ro/ssa") (lowerC t) || hasSub (codes "ro (ssa)") (lowerC t) ||
  hasSub (codes "ro") (lowerC t)

/-- The `$or` list for `field === 'all'` without the expansion. -/
def regularSearchConds (esc : List Nat) : List Cond :=
  searchFieldIds.map (fun f => Cond.contains f esc)

/-- The `$or` list for `field === 'all'` with the Ro52/SSA expansion: the
seven synonym conditions are inserted after `disease` and `autoantibody`. -/
def expandedSearchConds (esc : List Nat) : List Cond :=
  [Cond.contains .disease esc, Cond.contains .autoantibody esc] ++ roSynonymConds ++
  (searchFieldIds.drop 2).map (fun f => Cond.contains f esc)

/-- The search part of `buildCombinedQuery`: nothing when `search` is absent
or blank; the 26-field `$or` (with optional synonym expansion) for
`field === 'all'`; a single contains condition when `field` names one
recognised field (the `field === 'autoantibody'` special case in the source
assigns the same regex as the general branch, so the two collapse); nothing
when `field` is absent or unrecognised. -/
def searchConds (ps : SearchParams) : List (List Cond) :=
  match getParamNB ps "search" with
  | none => []
  | some t =>
    let esc := escapeRegex t
    if getParam ps "field" = some "all" then
      [if roTriggered t then expandedSearchConds esc else regularSearchConds esc]
    else
      match getParam ps "field" with
      | some fn =>
        match fieldIdOfName fn with
        | some f => [[Cond.contains f esc]]
        | none => []
      | none => []

/-- The 22 direct filters handled by `buildCombinedQuery`, in source order;
each produces an anchored case-insensitive regex on the escaped trimmed
value. -/
def filterSpecs : List (String × FieldId) :=
  [("disease", .disease), ("autoantibody", .autoantibody), ("autoantigen", .autoantigen),
   ("epitope", .epitope), ("uniprotId", .uniprotId), ("diseaseAssociation", .diseaseAssociation),
   ("affinity", .affinity), ("sensitivity", .sensitivity), ("diagnosticMarker", .diagnosticMarker),
   ("associationWithDiseaseActivity", .associationWithDiseaseActivity),
   ("pathogenesisInvolvement", .pathogenesisInvolvement), ("reference", .reference),
   ("databaseAccessionNumbers", .databaseAccessionNumbers), ("synonym", .synonym),
   ("screening", .screening), ("confirmation", .confirmation), ("monitoring", .monitoring),
   ("positivePredictiveValues", .positivePredictiveValues),
   ("negativePredictiveValues", .negativePredictiveValues),
   ("crossReactivityPatterns", .crossReactivityPatterns),
   ("referenceRangesAndCutoffValues", .referenceRangesAndCutoffValues),
   ("type", .type), ("priority", .priority)]

/-- The filter part of `buildCombinedQuery`. -/
def filterConds (ps : SearchParams) : List Cond :=
  filterSpecs.filterMap
    (fun nf => (getParamNB ps nf.1).map (fun tv => Cond.anchored nf.2 (escapeRegex tv)))

/-- `buildCombinedQuery`: combine search conditions and filter conditions
into the AND-of-ORs normal form (`{}` for none, the condition itself for one,
`$and` otherwise — all three cases coincide in the normal form). -/
def buildCombinedQuery (ps : SearchParams) : Query :=
  searchConds ps ++ (filterConds ps).map (fun c => [c])

/-! ### The embedded `$sort` stage -/

/-- Pulling a lawful comparator back along a key function keeps it lawful. -/
theorem LawfulCmp.comap {α β : Type} {c : β → β → Ordering} (hc : LawfulCmp c)
    (k : α → β) : LawfulCmp (fun a b => c (k a) (k b)) := by
  constructor
  · intro a b
    exact hc.1 (k a) (k b)
  · intro a b d hab hbd
    exact hc.2 (k a) (k b) (k d) hab hbd

/-- Swapping the arguments of a lawful comparator (a descending sort key)
keeps it lawful. -/
theorem LawfulCmp.swapArgs {α : Type} {c : α → α → Ordering} (hc : LawfulCmp c) :
    LawfulCmp (fun a b => c b a) := by
  constructor
  · intro a b
    exact hc.1 b a
  · intro a b d hab hbd
    exact hc.2 d b a hbd hab

/-- The sort relation induced by a comparator on records. -/
def recLE (c : Record → Record → Ordering) (a b : Record) : Prop :=
  (c a b).isLE = true

instance instDecRecLE (c : Record → Record → Ordering) : DecidableRel (recLE c) :=
  fun a b => instDecidableEqBool (c a b).isLE true

/-- The embedded `$sort` stage: sort the matched records by a comparator. -/
def rankSort (c : Record → Record → Ordering) (l : List Record) : List Record :=
  List.insertionSort (recLE c) l

theorem rankSort_pairwise {c : Record → Record → Ordering} (hc : LawfulCmp c)
    (l : List Record) : (rankSort c l).Pairwise (recLE c) := by
  haveI : IsTotal Record (recLE c) := ⟨fun a b => hc.total a b⟩
  haveI : IsTrans Record (recLE c) := ⟨fun a b d => hc.2 a b d⟩
  exact List.sorted_insertionSort (recLE c) l

theorem rankSort_perm (c : Record → Record → Ordering) (l : List Record) :
    (rankSort c l).Perm l :=
  List.perm_insertionSort (recLE c) l

/-- Normalized priority of a record. -/
def recPriority (r : Record) : PNum := priorityNumOf r.priority

/-- The shared leading `$sort` key `priorityNum: -1` followed by an arbitrary
tie comparator. -/
def priorityFirstCmp (tie : Record → Record → Ordering) (a b : Record) : Ordering :=
  (cmpPNum (recPriority b) (recPriority a)).then (tie a b)

theorem priorityFirstCmp_lawful {tie : Record → Record → Ordering}
    (htie : LawfulCmp tie) : LawfulCmp (priorityFirstCmp tie) := by
  have h1 : LawfulCmp (fun a b : Record => cmpPNum (recPriority b) (recPriority a)) :=
    (cmpPNum_lawful.comap recPriority).swapArgs
  have h2 := h1.thenCmp htie
  exact h2

/-- The relation "ordered with the higher normalized priority first". -/
def prioDesc (a b : Record) : Prop :=
  (cmpPNum (recPriority b) (recPriority a)).isLE = true

/-- Any two records related by a priority-first comparator are in descending
priority order. -/
theorem recLE_priorityFirst_prioDesc {tie : Record → Record → Ordering}
    {a b : Record} (h : recLE (priorityFirstCmp tie) a b) : prioDesc a b := by
  unfold recLE priorityFirstCmp at h
  unfold prioDesc
  rcases hx : cmpPNum (recPriority b) (recPriority a) with _ | _ | _
  · rfl
  · rfl
  · rw [hx] at h
    simp [Ordering.then, Ordering.isLE] at h

/-! ### Sort-field comparators for `getAllEntries` -/

/-- BSON type bracket used when sorting on the raw `priority` field:
null and missing sort lowest, then numbers, then strings. -/
def pvalRank : PVal → Nat
  | .missing => 0
  | .null => 0
  | .num _ _ => 1
  | .str _ => 2

def pvalNumKey : PVal → PNum
  | .num n e => ⟨n, e⟩
  | _ => ⟨0, 0⟩

def pvalStrKey : PVal → List Nat
  | .str s => codes s
  | _ => []

/-- BSON comparison of two stored priority values. -/
def cmpPVal (a b : PVal) : Ordering :=
  (cmpN (pvalRank a) (pvalRank b)).then
    ((cmpPNum (pvalNumKey a) (pvalNumKey b)).then
      (cmpCodes (pvalStrKey a) (pvalStrKey b)))

theorem cmpPVal_lawful : LawfulCmp cmpPVal := by
  have h2 : LawfulCmp (fun a b : PVal =>
      (cmpPNum (pvalNumKey a) (pvalNumKey b)).then
        (cmpCodes (pvalStrKey a) (pvalStrKey b))) :=
    (cmpPNum_lawful.comap pvalNumKey).thenCmp (cmpCodes_lawful.comap pvalStrKey)
  have h := (cmpN_lawful.comap pvalRank).thenCmp h2
  exact h

/-- Comparator on an optional string field (missing sorts first, as MongoDB). -/
def cmpOptField (a b : Option String) : Ordering :=
  cmpOptCodes (a.map codes) (b.map codes)

theorem cmpOptField_lawful : LawfulCmp cmpOptField := by
  show LawfulCmp (fun a b : Option String => cmpOptCodes (a.map codes) (b.map codes))
  exact cmpOptCodes_lawful.comap (fun o : Option String => o.map codes)

/-- The `validSortFields` list of `getAllEntries` (26 record fields plus the
`timestamps: true` columns). -/
def validSortFields : List String :=
  ["disease", "autoantibody", "autoantigen", "epitope", "uniprotId", "diseaseAssociation",
   "affinity", "avidity", "mechanism", "isotypeSubclasses", "sensitivity", "diagnosticMarker",
   "associationWithDiseaseActivity", "pathogenesisInvolvement", "reference",
   "databaseAccessionNumbers", "synonym", "screening", "confirmation", "monitoring",
   "positivePredictiveValues", "negativePredictiveValues", "crossReactivityPatterns",
   "referenceRangesAndCutoffValues", "type", "priority", "createdAt", "updatedAt"]

/-- Ascending comparator for one sort field name (the `[sortField]: dir` key
of the `$sort` document); names outside `validSortFields` cannot reach this
point because `getAllEntries` falls back to `disease` first. -/
def sortFieldCmp (n : String) : Record → Record → Ordering :=
  match n with
  | "disease" => fun a b => cmpCodes (codes a.disease) (codes b.disease)
  | "autoantibody" => fun a b => cmpCodes (codes a.autoantibody) (codes b.autoantibody)
  | "autoantigen" => fun a b => cmpCodes (codes a.autoantigen) (codes b.autoantigen)
  | "epitope" => fun a b => cmpCodes (codes a.epitope) (codes b.epitope)
  | "uniprotId" => fun a b => cmpCodes (codes a.uniprotId) (codes b.uniprotId)
  | "diseaseAssociation" => fun a b => cmpOptField a.diseaseAssociation b.diseaseAssociation
  | "affinity" => fun a b => cmpOptField a.affinity b.affinity
  | "avidity" => fun a b => cmpOptField a.avidity b.avidity
  | "mechanism" => fun a b => cmpOptField a.mechanism b.mechanism
  | "isotypeSubclasses" => fun a b => cmpOptField a.isotypeSubclasses b.isotypeSubclasses
  | "sensitivity" => fun a b => cmpOptField a.sensitivity b.sensitivity
  | "diagnosticMarker" => fun a b => cmpOptField a.diagnosticMarker b.diagnosticMarker
  | "associationWithDiseaseActivity" => fun a b =>
    cmpOptField a.associationWithDiseaseActivity b.associationWithDiseaseActivity
  | "pathogenesisInvolvement" => fun a b =>
    cmpOptField a.pathogenesisInvolvement b.pathogenesisInvolvement
  | "reference" => fun a b => cmpOptField a.reference b.reference
  | "databaseAccessionNumbers" => fun a b =>
    cmpOptField a.databaseAccessionNumbers b.databaseAccessionNumbers
  | "synonym" => fun a b => cmpOptField a.synonym b.synonym
  | "screening" => fun a b => cmpOptField a.screening b.screening
  | "confirmation" => fun a b => cmpOptField a.confirmation b.confirmation
  | "monitoring" => fun a b => cmpOptField a.monitoring b.monitoring
  | "positivePredictiveValues" => fun a b =>
    cmpOptField a.positivePredictiveValues b.positivePredictiveValues
  | "negativePredictiveValues" => fun a b =>
    cmpOptField a.negativePredictiveValues b.negativePredictiveValues
  | "crossReactivityPatterns" => fun a b =>
    cmpOptField a.crossReactivityPatterns b.crossReactivityPatterns
  | "referenceRangesAndCutoffValues" => fun a b =>
    cmpOptField a.referenceRangesAndCutoffValues b.referenceRangesAndCutoffValues
  | "type" => fun a b => cmpOptField a.type b.type
  | "priority" => fun a b => cmpPVal a.priority b.priority
  | "createdAt" => fun a b => cmpI a.createdAt b.createdAt
  | "updatedAt" => fun a b => cmpI a.updatedAt b.updatedAt
  | _ => fun a b => cmpCodes (codes a.disease) (codes b.disease)

theorem sortFieldCmp_lawful (n : String) : LawfulCmp (sortFieldCmp n) := by
  unfold sortFieldCmp
  split <;>
  first
  | exact cmpCodes_lawful.comap (fun r : Record => codes r.disease)
  | exact cmpCodes_lawful.comap (fun r : Record => codes r.autoantibody)
  | exact cmpCodes_lawful.comap (fun r : Record => codes r.autoantigen)
  | exact cmpCodes_lawful.comap (fun r : Record => codes r.epitope)
  | exact cmpCodes_lawful.comap (fun r : Record => codes r.uniprotId)
  | exact cmpOptField_lawful.comap (fun r : Record => r.diseaseAssociation)
  | exact cmpOptField_lawful.comap (fun r : Record => r.affinity)
  | exact cmpOptField_lawful.comap (fun r : Record => r.avidity)
  | exact cmpOptField_lawful.comap (fun r : Record => r.mechanism)
  | exact cmpOptField_lawful.comap (fun r : Record => r.isotypeSubclasses)
  | exact cmpOptField_lawful.comap (fun r : Record => r.sensitivity)
  | exact cmpOptField_lawful.comap (fun r : Record => r.diagnosticMarker)
  | exact cmpOptField_lawful.comap (fun r : Record => r.associationWithDiseaseActivity)
  | exact cmpOptField_lawful.comap (fun r : Record => r.pathogenesisInvolvement)
  | exact cmpOptField_lawful.comap (fun r : Record => r.reference)
  | exact cmpOptField_lawful.comap (fun r : Record => r.databaseAccessionNumbers)
  | exact cmpOptField_lawful.comap (fun r : Record => r.synonym)
  | exact cmpOptField_lawful.comap (fun r : Record => r.screening)
  | exact cmpOptField_lawful.comap (fun r : Record => r.confirmation)
  | exact cmpOptField_lawful.comap (fun r : Record => r.monitoring)
  | exact cmpOptField_lawful.comap (fun r : Record => r.positivePredictiveValues)
  | exact cmpOptField_lawful.comap (fun r : Record => r.negativePredictiveValues)
  | exact cmpOptField_lawful.comap (fun r : Record => r.crossReactivityPatterns)
  | exact cmpOptField_lawful.comap (fun r : Record => r.referenceRangesAndCutoffValues)
  | exact cmpOptField_lawful.comap (fun r : Record => r.type)
  | exact cmpPVal_lawful.comap (fun r : Record => r.priority)
  | exact cmpI_lawful.comap (fun r : Record => r.createdAt)
  | exact cmpI_lawful.comap (fun r : Record => r.updatedAt)

/-- Apply the requested sort direction (`sortOrder === 'desc' ? -1 : 1`). -/
def dirCmp (desc : Bool) (c : Record → Record → Ordering) (a b : Record) : Ordering :=
  if desc then c b a else c a b

theorem dirCmp_lawful {c : Record → Record → Ordering} (hc : LawfulCmp c)
    (desc : Bool) : LawfulCmp (dirCmp desc c) := by
  cases desc
  · have h := hc
    unfold dirCmp
    simp only [Bool.false_eq_true, if_false]
    exact h
  · have h := hc.swapArgs
    unfold dirCmp
    simp only [if_true]
    exact h

/-! ### Ranked retrieval endpoints

Each endpoint is embedded as a pure function over the store (`List Record`).
`page`/`limit` arguments model `parseInt(...)` results: `none` is an absent
or non-numeric parameter (`NaN`), `some n` a parsed integer. -/

/-- Extract the payload of a fallible endpoint (`[]` when it responded with
an error status). -/
def okList (e : Except String (List Record)) : List Record :=
  match e with
  | .ok l => l
  | .error _ => []

/-- Response shape of `getAllEntries`: the page of records plus pagination
metadata. -/
structure PagedResult where
  data : List Record
  page : Int
  limit : Int
  total : Nat
  pages : Nat
deriving DecidableEq, Repr

/-- `page = Math.max(1, parseInt(req.query.page) || 1)`: `NaN` and `0` are
replaced by the default before clamping. -/
def effPage (pageRaw : Option Int) : Int :=
  max 1 (match pageRaw with
         | none => 1
         | some n => if n = 0 then 1 else n)

/-- `limit = Math.min(Math.max(1, parseInt(req.query.limit) || 10), 10000)`. -/
def effLimit (limitRaw : Option Int) : Int :=
  min (max 1 (match limitRaw with
              | none => 10
              | some n => if n = 0 then 10 else n)) 10000

/-- The tie comparator of `getAllEntries`: the validated sort field in the
requested direction. -/
def allEntriesTie (sortByRaw sortOrderRaw : Option String) :
    Record → Record → Ordering :=
  let sortBy := match sortByRaw with | none => "disease" | some s => s
  let sortOrder := match sortOrderRaw with | none => "asc" | some s => s
  let sortField := if validSortFields.contains sortBy then sortBy else "disease"
  dirCmp (sortOrder == "desc") (sortFieldCmp sortField)

/-- `getAllEntries`: build the combined query, aggregate with
`$match` / `$addFields priorityNum` / `$sort {priorityNum: -1, [sortField]: dir}` /
`$skip` / `$limit` / `$project`, and report pagination metadata with
`total = countDocuments(query)` and `pages = Math.ceil(total / limit)`. -/
def getAllEntries (db : List Record) (ps : SearchParams)
    (pageRaw limitRaw : Option Int) (sortByRaw sortOrderRaw : Option String) :
    PagedResult :=
  let page := effPage pageRaw
  let limit := effLimit limitRaw
  let skip := ((page - 1) * limit).toNat
  let query := buildCombinedQuery ps
  let matched := db.filter (queryMatches query)
  let sorted := rankSort (priorityFirstCmp (allEntriesTie sortByRaw sortOrderRaw)) matched
  let total := matched.length
  { data := (sorted.drop skip).take limit.toNat
    page := page
    limit := limit
    total := total
    pages := (total + limit.toNat - 1) / limit.toNat }

/-- The tie comparator `disease: 1, autoantibody: 1` shared by
`searchEntries`, `getEntriesByUniprotId` and `exportEntries`. -/
def diseaseAbTie (a b : Record) : Ordering :=
  (cmpCodes (codes a.disease) (codes b.disease)).then
    (cmpCodes (codes a.autoantibody) (codes b.autoantibody))

theorem diseaseAbTie_lawful : LawfulCmp diseaseAbTie := by
  have h := (cmpCodes_lawful.comap (fun r : Record => codes r.disease)).thenCmp
    (cmpCodes_lawful.comap (fun r : Record => codes r.autoantibody))
  exact h

/-- `searchEntries`: requires a non-blank search term, builds the combined
query for `{search, field}` (`field` defaults to `'all'`), sorts by
priority desc then disease, autoantibody, and caps at
`Math.min(parseInt(limit), 1000)` (`limit` defaults to 20). -/
def searchEntries (db : List Record) (qParam fieldParam : Option String)
    (limitRaw : Option Int) : Except String (List Record) :=
  match qParam with
  | none => .error "Search term is required"
  | some q =>
    if trimC (codes q) = [] then .error "Search term is required"
    else
      let ps : SearchParams := [("search", q), ("field", fieldParam.getD "all")]
      let matched := db.filter (queryMatches (buildCombinedQuery ps))
      let sorted := rankSort (priorityFirstCmp diseaseAbTie) matched
      .ok (sorted.take (min (limitRaw.getD 20) 1000).toNat)

/-- `getEntriesByDisease`: requires a non-blank path parameter, matches with
an unanchored case-insensitive regex on `disease` built from the escaped
trimmed value, sorts by priority desc then autoantibody, autoantigen. -/
def getEntriesByDisease (db : List Record) (diseaseParam : Option String) :
    Except String (List Record) :=
  match diseaseParam with
  | none => .error "Disease name is required"
  | some d =>
    if trimC (codes d) = [] then .error "Disease name is required"
    else
      let c := Cond.contains .disease (escapeRegex (trimC (codes d)))
      let matched := db.filter (fun r => condMatches r c)
      let tie := fun a b : Record =>
        (cmpCodes (codes a.autoantibody) (codes b.autoantibody)).then
          (cmpCodes (codes a.autoantigen) (codes b.autoantigen))
      .ok (rankSort (priorityFirstCmp tie) matched)

/-- `getEntriesByUniprotId`: requires a non-blank path parameter, matches
records by literal equality `{uniprotId: value.toUpperCase().trim()}`
(case-sensitive, no regex), sorts by priority desc then disease,
autoantibody. -/
def getEntriesByUniprotId (db : List Record) (uniprotParam : Option String) :
    Except String (List Record) :=
  match uniprotParam with
  | none => .error "UniProt ID is required"
  | some u =>
    if trimC (codes u) = [] then .error "UniProt ID is required"
    else
      let v := trimC (upperC (codes u))
      let matched := db.filter (fun r => codes r.uniprotId == v)
      .ok (rankSort (priorityFirstCmp diseaseAbTie) matched)

/-- The 22 direct filters of `exportEntries`, in source order (the same
fields as `buildCombinedQuery` except `priority`). -/
def exportSpecs : List (String × FieldId) :=
  [("disease", .disease), ("autoantibody", .autoantibody), ("autoantigen", .autoantigen),
   ("epitope", .epitope), ("uniprotId", .uniprotId), ("diseaseAssociation", .diseaseAssociation),
   ("affinity", .affinity), ("sensitivity", .sensitivity), ("diagnosticMarker", .diagnosticMarker),
   ("associationWithDiseaseActivity", .associationWithDiseaseActivity),
   ("pathogenesisInvolvement", .pathogenesisInvolvement), ("reference", .reference),
   ("databaseAccessionNumbers", .databaseAccessionNumbers), ("synonym", .synonym),
   ("screening", .screening), ("confirmation", .confirmation), ("monitoring", .monitoring),
   ("positivePredictiveValues", .positivePredictiveValues),
   ("negativePredictiveValues", .negativePredictiveValues),
   ("crossReactivityPatterns", .crossReactivityPatterns),
   ("referenceRangesAndCutoffValues", .referenceRangesAndCutoffValues),
   ("type", .type)]

/-- The `if (value)` guard of `exportEntries` (truthiness only, no trim
check); the trimmed value is then escaped into the anchored regex. -/
def getParamT (ps : SearchParams) (n : String) : Option (List Nat) :=
  match getParam ps n with
  | none => none
  | some v => if v = "" then none else some (trimC (codes v))

/-- The query document `exportEntries` assembles (one anchored
case-insensitive regex per supplied filter, AND-ed as keys of one object). -/
def exportQuery (ps : SearchParams) : Query :=
  (exportSpecs.filterMap
    (fun nf => (getParamT ps nf.1).map (fun tv => Cond.anchored nf.2 (escapeRegex tv)))).map
    (fun c => [c])

/-- `exportEntries`: filter, sort by priority desc then disease,
autoantibody, and apply the optional `$limit Math.min(parseInt(limit), 10000)`
only when `limit` is supplied and positive. -/
def exportEntries (db : List Record) (ps : SearchParams) (limitRaw : Option Int) :
    List Record :=
  let matched := db.filter (queryMatches (exportQuery ps))
  let sorted := rankSort (priorityFirstCmp diseaseAbTie) matched
  match limitRaw with
  | some l => if 0 < l then sorted.take (min l 10000).toNat else sorted
  | none => sorted

/-! ### Advanced search (`advancedSearch`) -/

/-- One `$regexMatch {input: {$ifNull: ['$f', '']}, regex: searchRegex}`
test: an absent field is matched as the empty string (the required fields
`disease`, `autoantibody`, `autoantigen` are passed without `$ifNull` but are
always present). -/
def fieldContainsIfNull (r : Record) (f : FieldId) (pat : List Nat) : Bool :=
  hasSub (lowerC (litPat pat)) (lowerC (codes ((getField r f).getD "")))

/-- The weighted fields of the relevance score, in source order. -/
def advWeights : List (FieldId × Int) :=
  [(.disease, 10), (.autoantibody, 8), (.autoantigen, 6), (.epitope, 4), (.uniprotId, 2),
   (.diseaseAssociation, 3), (.diagnosticMarker, 5), (.pathogenesisInvolvement, 3),
   (.reference, 1)]

/-- The `$addFields relevanceScore` expression: the `$sum` of one `$cond`
per weighted field. -/
def relevanceScore (pat : List Nat) (r : Record) : Int :=
  (advWeights.map (fun fw => if fieldContainsIfNull r fw.1 pat then fw.2 else 0)).sum

/-- The `$match` stage of `advancedSearch`: the 26-field contains `$or`. -/
def advMatch (pat : List Nat) (r : Record) : Bool :=
  (regularSearchConds pat).any (condMatches r)

/-- The `$sort {relevanceScore: -1, disease: 1}` comparator. -/
def advCmp (pat : List Nat) (a b : Record) : Ordering :=
  (cmpI (relevanceScore pat b) (relevanceScore pat a)).then
    (cmpCodes (codes a.disease) (codes b.disease))

theorem advCmp_lawful (pat : List Nat) : LawfulCmp (advCmp pat) := by
  have h := ((cmpI_lawful.comap (relevanceScore pat)).swapArgs).thenCmp
    (cmpCodes_lawful.comap (fun r : Record => codes r.disease))
  exact h

/-- `advancedSearch`: requires a term of at least 2 characters after
trimming, matches the escaped term against the 26 searched fields, scores
the 9 weighted fields, sorts by score desc then disease asc, and caps at
`Math.min(parseInt(limit), 100)` (`limit` defaults to 50). -/
def advancedSearch (db : List Record) (qParam : Option String)
    (limitRaw : Option Int) : Except String (List Record) :=
  match qParam with
  | none => .error "Search term must be at least 2 characters long"
  | some q =>
    if (trimC (codes q)).length < 2 then
      .error "Search term must be at least 2 characters long"
    else
      let pat := escapeRegex (trimC (codes q))
      let matched := db.filter (advMatch pat)
      let sorted := rankSort (advCmp pat) matched
      .ok (sorted.take (min (limitRaw.getD 50) 100).toNat)

/-! ### Unique values (`getUniqueValues`) -/

/-- The 25 field names `getUniqueValues` accepts (no `priority`). -/
def validUniqueFields : List String :=
  ["disease", "autoantibody", "autoantigen", "epitope", "uniprotId", "diseaseAssociation",
   "affinity", "avidity", "mechanism", "isotypeSubclasses", "sensitivity", "diagnosticMarker",
   "associationWithDiseaseActivity", "pathogenesisInvolvement", "reference",
   "databaseAccessionNumbers", "synonym", "screening", "confirmation", "monitoring",
   "positivePredictiveValues", "negativePredictiveValues", "crossReactivityPatterns",
   "referenceRangesAndCutoffValues", "type"]

/-- Read a field by its request-parameter name. -/
def getFieldByName (r : Record) (n : String) : Option String :=
  (fieldIdOfName n).bind (fun f => getField r f)

/-- First-seen case-insensitive deduplication (the `seen` map of the
controller). -/
def dedupeCI (l : List (List Nat)) : List (List Nat) :=
  l.foldl (fun acc v => if acc.any (fun w => lowerC w == lowerC v) then acc else acc ++ [v]) []

/-- `getUniqueValues`: an unrecognised field name is rejected with the
invalid-field error and no data; otherwise the distinct non-blank trimmed
values are deduplicated case-insensitively (first-seen original kept) and
sorted case-insensitively.  The extra priority-biased ordering the source
applies only when `field === 'disease'` concerns the ordering of the success
payload and is not modelled. -/
def getUniqueValues (db : List Record) (field : String) :
    Except String (List (List Nat)) :=
  if validUniqueFields.contains field then
    let vals := ((db.filterMap (fun r => getFieldByName r field)).map
      (fun s => trimC (codes s))).filter (fun v => !v.isEmpty)
    .ok (List.insertionSort
      (fun a b => (cmpCodes (lowerC a) (lowerC b)).isLE = true) (dedupeCI vals))
  else
    .error "Invalid field specified. Must be one of: disease, autoantibody, autoantigen, epitope, uniprotId, diseaseAssociation, affinity, avidity, mechanism, isotypeSubclasses, sensitivity, diagnosticMarker, associationWithDiseaseActivity, pathogenesisInvolvement, reference, databaseAccessionNumbers, synonym, screening, confirmation, monitoring, positivePredictiveValues, negativePredictiveValues, crossReactivityPatterns, referenceRangesAndCutoffValues, type"

/-! ### Bulk import (`bulkImport` / `validateBulkEntries`) -/

/-- One element of the request's `entries` array: either not an object at
all, or an object carrying the five required fields (absent → `none`). -/
inductive BulkEntry where
  | invalid : BulkEntry
  | mk : Option String → Option String → Option String → Option String →
      Option String → BulkEntry
deriving DecidableEq, Repr

/-- `!entry.f || !entry.f.toString().trim()`: the required field is absent,
falsy, or whitespace-only. -/
def reqMissing : Option String → Bool
  | none => true
  | some s => s == "" || (trimC (codes s)).isEmpty

/-- The error messages `validateBulkEntries` pushes for one entry. -/
def entryErrors (i : Nat) : BulkEntry → List String
  | .invalid => ["Entry " ++ toString (i + 1) ++ ": Invalid entry format"]
  | .mk d ab ag ep up =>
    (if reqMissing d then ["Entry " ++ toString (i + 1) ++ ": Disease is required"] else []) ++
    (if reqMissing ab then ["Entry " ++ toString (i + 1) ++ ": Autoantibody is required"] else []) ++
    (if reqMissing ag then ["Entry " ++ toString (i + 1) ++ ": Autoantigen is required"] else []) ++
    (if reqMissing ep then ["Entry " ++ toString (i + 1) ++ ": Epitope is required"] else []) ++
    (if reqMissing up then ["Entry " ++ toString (i + 1) ++ ": UniProt ID is required"] else [])

/-- `validateBulkEntries` on an array (the not-an-array early return is
handled by `bulkImport` before this point). -/
def validateBulkEntries (entries : List BulkEntry) : List String :=
  (entries.enum.map (fun ie => entryErrors ie.1 ie.2)).flatten

/-- The `entries` value found in the request body. -/
inductive EntriesVal where
  | absent : EntriesVal
  | notArray : EntriesVal
  | arr : List BulkEntry → EntriesVal
deriving DecidableEq, Repr

/-- `bulkImport`: reject a missing / non-array / empty `entries` value, a
batch of more than 1000 entries, or a batch with validation errors; only a
batch passing every check reaches `insertMany` (the `.ok` payload). -/
def bulkImport (body : EntriesVal) : Except String (List BulkEntry) :=
  match body with
  | .absent => .error "Entries array is required and cannot be empty"
  | .notArray => .error "Entries array is required and cannot be empty"
  | .arr entries =>
    if entries.isEmpty then .error "Entries array is required and cannot be empty"
    else if entries.length > 1000 then .error "Cannot import more than 1000 entries at once"
    else if !(validateBulkEntries entries).isEmpty then .error "Validation errors in bulk data"
    else .ok entries

/-! ### Submission review (`approveSubmission` / `rejectSubmission`) -/

inductive SubStatus where
  | pending : SubStatus
  | approved : SubStatus
  | rejected : SubStatus
deriving DecidableEq, Repr

/-- A disease submission (mongoose `diseaseSubmission` schema): the
Record-shaped draft plus the review workflow fields. -/
structure Submission where
  disease : String
  autoantibody : String
  diseaseAssociation : Option String := none
  autoantigen : String
  epitope : String
  epitopePrevalence : Option String := none
  uniprotId : String
  affinity : Option String := none
  avidity : Option String := none
  mechanism : Option String := none
  isotypeSubclasses : Option String := none
  sensitivity : Option String := none
  diagnosticMarker : Option String := none
  associationWithDiseaseActivity : Option String := none
  pathogenesisInvolvement : Option String := none
  reference : String
  submittedBy : String
  status : SubStatus := .pending
  reviewedBy : Option String := none
  reviewedAt : Option Int := none
  reviewNote : Option String := none
deriving DecidableEq, Repr

/-- The Record `approveSubmission` creates from a submission: the listed
fields are copied and the metadata is written with `verified: true`. -/
def recordOfSubmission (s : Submission) : Record :=
  { disease := s.disease
    autoantibody := s.autoantibody
    diseaseAssociation := s.diseaseAssociation
    autoantigen := s.autoantigen
    epitope := s.epitope
    epitopePrevalence := s.epitopePrevalence
    uniprotId := s.uniprotId
    affinity := s.affinity
    avidity := s.avidity
    mechanism := s.mechanism
    isotypeSubclasses := s.isotypeSubclasses
    sensitivity := s.sensitivity
    diagnosticMarker := s.diagnosticMarker
    associationWithDiseaseActivity := s.associationWithDiseaseActivity
    pathogenesisInvolvement := s.pathogenesisInvolvement
    reference := some s.reference
    verified := true }

/-- `approveSubmission` on a found submission: refuse only a submission that
is already approved; otherwise create the Record and mark the submission
approved with the review metadata. -/
def approveSubmission (s : Submission) (reviewer : String) (note : Option String)
    (now : Int) : Except String (Submission × Record) :=
  if s.status = .approved then .error "Submission already approved"
  else
    .ok ({ s with
           status := .approved
           reviewedBy := some reviewer
           reviewedAt := some now
           reviewNote := note },
         recordOfSubmission s)

/-- `rejectSubmission` on a found submission: refuse only a submission that
is already rejected; otherwise mark it rejected with the review metadata. -/
def rejectSubmission (s : Submission) (reviewer : String) (note : Option String)
    (now : Int) : Except String Submission :=
  if s.status = .rejected then .error "Submission already rejected"
  else
    .ok { s with
          status := .rejected
          reviewedBy := some reviewer
          reviewedAt := some now
          reviewNote := note }

/-! ### Helper lemmas for the claim theorems -/

theorem lookup_cons_ne {β : Type} (k n : String) (v : β) (ps : List (String × β))
    (h : ¬ n = k) : List.lookup n ((k, v) :: ps) = List.lookup n ps := by
  have hb : (n == k) = false := beq_eq_false_iff_ne.mpr h
  simp [List.lookup, hb]

theorem getParam_cons_ne {k n v : String} {ps : SearchParams} (h : ¬ n = k) :
    getParam ((k, v) :: ps) n = getParam ps n :=
  lookup_cons_ne k n v ps h

theorem getParamNB_cons_ne {k n v : String} {ps : SearchParams} (h : ¬ n = k) :
    getParamNB ((k, v) :: ps) n = getParamNB ps n := by
  unfold getParamNB
  rw [getParam_cons_ne h]

/-- The parameter names `buildCombinedQuery` reads. -/
def paramKeys : List String := "search" :: "field" :: filterSpecs.map Prod.fst

/-- `filterMap` of a guarded function is `map` over `filter`. -/
theorem filterMap_guard {α β : Type} (p : α → Bool) (g : α → β) (l : List α) :
    l.filterMap (fun x => if p x then some (g x) else none) = (l.filter p).map g := by
  induction l with
  | nil => rfl
  | cons x xs ih => by_cases h : p x = true <;> simp [h, ih]

/-- In a spec list with distinct names, filtering by the name of a member
finds exactly that member. -/
theorem filter_fst_eq_of_nodup {l : List (String × FieldId)}
    (hnd : (l.map Prod.fst).Nodup) {n : String} {f : FieldId} (hmem : (n, f) ∈ l) :
    l.filter (fun nf => nf.1 == n) = [(n, f)] := by
  induction l with
  | nil => cases hmem
  | cons x xs ih =>
    rcases List.mem_cons.mp hmem with hx | hx
    · subst hx
      have hrest : ∀ nf ∈ xs, ¬ (nf.1 == n) = true := by
        intro nf hnf hb
        have : nf.1 = n := by simpa using hb
        have hn : n ∈ xs.map Prod.fst := this ▸ List.mem_map_of_mem Prod.fst hnf
        exact (List.nodup_cons.mp hnd).1 hn
      simp only [List.filter_cons]
      rw [if_pos (by simp)]
      rw [List.filter_eq_nil_iff.mpr hrest]
    · have hx1 : ¬ (x.1 == n) = true := by
        intro hb
        have heq : x.1 = n := by simpa using hb
        have hn : n ∈ xs.map Prod.fst := List.mem_map_of_mem Prod.fst hx
        exact (List.nodup_cons.mp hnd).1 (heq ▸ hn)
      simp only [List.filter_cons]
      rw [if_neg hx1]
      exact ih (List.nodup_cons.mp hnd).2 hx

/-- The search part of the builder ignores a parameter list holding only a
filter name. -/
theorem searchConds_single (n v : String) (hn : ¬ "search" = n) :
    searchConds [(n, v)] = [] := by
  have h : getParamNB [(n, v)] "search" = none := by
    simp [getParamNB, getParam, List.lookup, beq_eq_false_iff_ne.mpr hn]
  unfold searchConds
  rw [h]

/-- The filter part of the builder on a single recognised parameter. -/
theorem filterConds_single (n : String) (f : FieldId) (hmem : (n, f) ∈ filterSpecs)
    (v : String) (hv : trimC (codes v) ≠ []) :
    filterConds [(n, v)] = [Cond.anchored f (escapeRegex (trimC (codes v)))] := by
  have hv0 : ¬ (v = "") := by
    intro h; subst h; exact hv rfl
  unfold filterConds
  have step : ∀ nf ∈ filterSpecs,
      ((getParamNB [(n, v)] nf.1).map (fun tv => Cond.anchored nf.2 (escapeRegex tv))) =
        if (nf.1 == n) then some (Cond.anchored nf.2 (escapeRegex (trimC (codes v))))
        else none := by
    intro nf _
    by_cases h : nf.1 = n
    · simp [getParamNB, getParam, List.lookup, h, hv0, hv]
    · simp [getParamNB, getParam, List.lookup, beq_eq_false_iff_ne.mpr h, h]
  rw [List.filterMap_congr step, filterMap_guard, filter_fst_eq_of_nodup (by decide) hmem]
  rfl

/-- A single recognised filter parameter builds exactly one anchored
condition on its field. -/
theorem buildCombinedQuery_single (n : String) (f : FieldId)
    (hmem : (n, f) ∈ filterSpecs)
    (v : String) (hv : trimC (codes v) ≠ []) :
    buildCombinedQuery [(n, v)] =
      [[Cond.anchored f (escapeRegex (trimC (codes v)))]] := by
  have hn : ¬ "search" = n := by
    intro h
    subst h
    simp [filterSpecs] at hmem
  unfold buildCombinedQuery
  rw [searchConds_single n v hn, filterConds_single n f hmem v hv]
  rfl

/-- Semantics of a one-condition anchored query: a case-insensitive
full-string match on the field. -/
theorem queryMatches_single_anchored (f : FieldId) (tv : List Nat) (r : Record) :
    queryMatches [[Cond.anchored f (escapeRegex tv)]] r = true ↔
      ∃ s, getField r f = some s ∧ lowerC (codes s) = lowerC tv := by
  unfold queryMatches
  simp only [List.all_cons, List.all_nil, List.any_cons, List.any_nil, Bool.and_true,
    Bool.or_false]
  cases h : getField r f with
  | none => simp [condMatches, h]
  | some s =>
    simp only [condMatches, h, litPat_escapeRegex, beq_iff_eq]
    constructor
    · intro hb
      exact ⟨s, rfl, hb.symm⟩
    · rintro ⟨s', hs', he⟩
      injection hs' with h2
      subst h2
      exact he.symm

/-- The first key of a lexicographic comparator is respected by its `isLE`. -/
theorem then_isLE_first {o1 o2 : Ordering} (h : (o1.then o2).isLE = true) :
    o1.isLE = true := by
  cases o1
  · rfl
  · rfl
  · simp [Ordering.then, Ordering.isLE] at h

/-- A `rankSort` under a priority-first comparator lists higher priorities
first. -/
theorem pairwise_prioDesc_rankSort {tie : Record → Record → Ordering}
    (htie : LawfulCmp tie) (l : List Record) :
    (rankSort (priorityFirstCmp tie) l).Pairwise prioDesc :=
  (rankSort_pairwise (priorityFirstCmp_lawful htie) l).imp
    (fun h => recLE_priorityFirst_prioDesc h)

/-- A skip/limit window of a pairwise-ordered list stays pairwise ordered. -/
theorem pairwise_window {R : Record → Record → Prop} {l : List Record}
    (h : l.Pairwise R) (n m : Nat) : ((l.drop n).take m).Pairwise R :=
  List.Pairwise.sublist ((List.take_sublist m (l.drop n)).trans (List.drop_sublist n l)) h

/-- A prefix of a pairwise-ordered list stays pairwise ordered. -/
theorem pairwise_take {R : Record → Record → Prop} {l : List Record}
    (h : l.Pairwise R) (m : Nat) : (l.take m).Pairwise R :=
  List.Pairwise.sublist (List.take_sublist m l) h

theorem allEntriesTie_lawful (sb so : Option String) : LawfulCmp (allEntriesTie sb so) := by
  unfold allEntriesTie
  exact dirCmp_lawful (sortFieldCmp_lawful _) _

/-! ### Concrete records used by the claim instances -/

/-- A minimal record with the five required fields. -/
def blankRec : Record :=
  { disease := "d", autoantibody := "ab", autoantigen := "ag", epitope := "e",
    uniprotId := "U1" }

def ssaRec : Record := { blankRec with autoantibody := "SSA" }

def ro52Rec : Record := { blankRec with autoantibody := "Ro52" }

def c1qRec : Record := { blankRec with disease := "C1q (CLASSICAL)" }

def hiPriRec : Record := { blankRec with disease := "Zzz", priority := .str "5" }

def loPriRec : Record := { blankRec with disease := "Aaa", priority := .str "1" }

def mkRec25 (i : Nat) : Record :=
  { blankRec with disease := "d" ++ (if i < 10 then "0" else "") ++ toString i }

def db25 : List Record := (List.range 25).map mkRec25

def synRec : Record := { blankRec with synonym := some "zzq!" }

def advARec : Record := { blankRec with disease := "term alpha", autoantibody := "term ab" }

def advBRec : Record := { blankRec with disease := "beta", reference := some "see term 7" }

/-! ### Claim theorems -/

/-- C2 (counterexample): the claim says a direct filter on `autoantibody`
matches case-insensitive substrings; but for the filter value "ro", which is
a substring of the stored autoantibody "Ro52", the predicate built by
`buildCombinedQuery` does not match the record, because the source anchors
the regex (`^...$`) exactly as for every other field. -/
theorem autoantibody_filter_contains_cex :
    hasSub (lowerC (trimC (codes "ro"))) (lowerC (codes ro52Rec.autoantibody)) = true ∧
    queryMatches (buildCombinedQuery [("autoantibody", "ro")]) ro52Rec = false := by
  decide

/-- C2 (amended): for every non-blank value `v` supplied as a direct filter
on `autoantibody`, the predicate built by `buildCombinedQuery` matches
exactly those records whose `autoantibody`, case-folded, equals the trimmed
`v` case-folded as a full string — the same anchored behaviour as every
other field's direct filter. -/
theorem autoantibody_filter_exact (v : String) (r : Record)
    (hv : trimC (codes v) ≠ []) :
    queryMatches (buildCombinedQuery [("autoantibody", v)]) r = true ↔
      lowerC (codes r.autoantibody) = lowerC (trimC (codes v)) := by
  rw [buildCombinedQuery_single "autoantibody" .autoantibody (by decide) v hv,
    queryMatches_single_anchored]
  simp only [getField, Option.some.injEq]
  constructor
  · rintro ⟨s, hs, he⟩
    subst hs
    exact he
  · intro he
    exact ⟨r.autoantibody, rfl, he⟩

/-- Witness for the amended C2 theorem at a concrete input. -/
theorem autoantibody_filter_exact_witness :
    queryMatches (buildCombinedQuery [("autoantibody", "ro52")]) ro52Rec = true :=
  (autoantibody_filter_exact "ro52" ro52Rec (by decide)).mpr (by decide)

/-- C3 (counterexample): the claim says `search = "bro"` does not trigger
the Ro52/SSA synonym expansion; but the last trigger condition is
`.includes('ro')`, which any superstring of "ro" satisfies, so the built
predicate is the expanded one and matches a record whose only relevant field
is `autoantibody = "SSA"`, even though no field of that record contains
"bro" (third conjunct). -/
theorem ro_expansion_superstring_cex :
    buildCombinedQuery [("search", "bro"), ("field", "all")] =
      [expandedSearchConds (escapeRegex (codes "bro"))] ∧
    queryMatches (buildCombinedQuery [("search", "bro"), ("field", "all")]) ssaRec = true ∧
    (regularSearchConds (escapeRegex (codes "bro"))).any (condMatches ssaRec) = false := by
  decide

/-- C3 (amended): with `field = "all"` the predicate built for
`search = "ro"` matches a record whose `autoantibody` is exactly "SSA" even
though no field contains "ro" (the synonym expansion adds contains-matches
for the SSA/Ro52 spellings), and the expansion triggers precisely when the
lowercased trimmed search text contains "ro" as a substring — any
superstring of "ro" (such as "bro") also triggers it. -/
theorem ro_synonym_expansion :
    queryMatches (buildCombinedQuery [("search", "ro"), ("field", "all")]) ssaRec = true ∧
    (regularSearchConds (escapeRegex (codes "ro"))).any (condMatches ssaRec) = false ∧
    (∀ t : List Nat, roTriggered t = true ↔ hasSub (codes "ro") (lowerC t) = true) := by
  refine ⟨by decide, by decide, ?_⟩
  intro t
  constructor
  · intro h
    unfold roTriggered at h
    simp only [Bool.or_eq_true] at h
    rcases h with (((h | h) | h) | h) | h
    · exact hasSub_trans (by decide) h
    · exact hasSub_trans (by decide) h
    · exact hasSub_trans (by decide) h
    · exact hasSub_trans (by decide) h
    · exact h
  · intro h
    unfold roTriggered
    simp [h]

/-- C5: for every recognised filter field other than `autoantibody` and
every non-blank value `v` (metacharacters included — see the witness with
"C1q (classical)"), the predicate built by `buildCombinedQuery` matches a
record iff the record's field, case-folded, equals the trimmed `v`
case-folded as a full string, never as a proper substring. -/
theorem direct_filter_exact :
    ∀ nf ∈ filterSpecs, nf.2 ≠ FieldId.autoantibody →
      ∀ (v : String) (r : Record), trimC (codes v) ≠ [] →
        (queryMatches (buildCombinedQuery [(nf.1, v)]) r = true ↔
          ∃ s, getField r nf.2 = some s ∧
            lowerC (codes s) = lowerC (trimC (codes v))) := by
  rintro ⟨n, f⟩ hmem hne v r hv
  rw [buildCombinedQuery_single n f hmem v hv]
  exact queryMatches_single_anchored f (trimC (codes v)) r

/-- Witness for C5: the filter value "C1q (classical)" (regex
metacharacters) matches the stored disease "C1q (CLASSICAL)" exactly. -/
theorem direct_filter_exact_witness :
    queryMatches (buildCombinedQuery [("disease", "C1q (classical)")]) c1qRec = true :=
  (direct_filter_exact ("disease", FieldId.disease) (by decide) (by decide)
    "C1q (classical)" c1qRec (by decide)).mpr ⟨"C1q (CLASSICAL)", by decide, by decide⟩

/-- Records returned by `getAllEntries` are store records, unchanged (the
temporary `priorityNum` sort key is projected away; our `Record` carries no
such field at all). -/
theorem getAllEntries_mem (db : List Record) (ps : SearchParams) (p l : Option Int)
    (sb so : Option String) (r : Record)
    (hr : r ∈ (getAllEntries db ps p l sb so).data) : r ∈ db := by
  replace hr : r ∈ ((rankSort (priorityFirstCmp (allEntriesTie sb so))
      (db.filter (queryMatches (buildCombinedQuery ps)))).drop
        (((effPage p - 1) * effLimit l).toNat)).take (effLimit l).toNat := hr
  have h2 := List.drop_subset _ _ (List.take_subset _ _ hr)
  have h3 := (rankSort_perm _ _).mem_iff.mp h2
  exact (List.mem_filter.mp h3).1

/-- C4: the priority normalization used as the ranking key is a total
function of the stored value — absent, null and the empty string give 0, a
stored number is used verbatim, a string of shape optional sign, digits,
optional decimal part parses to its numeric value, any other string gives 0
— and the computed key is never part of the returned records. -/
theorem priority_normalizer_total :
    ((priorityNumOf .missing).toRat = 0 ∧ (priorityNumOf .null).toRat = 0 ∧
      (priorityNumOf (.str "")).toRat = 0) ∧
    ((priorityNumOf (.str "3.5")).toRat = 3.5 ∧ (priorityNumOf (.str "-2")).toRat = -2 ∧
      (priorityNumOf (.str "abc")).toRat = 0 ∧ (priorityNumOf (.num 7 0)).toRat = 7) ∧
    (∀ (n : Int) (e : Nat), priorityNumOf (.num n e) = ⟨n, e⟩) ∧
    (∀ s : String, s ≠ "" → isNumericCodes (codes s) = true →
      priorityNumOf (.str s) = parseNumericCodes (codes s)) ∧
    (∀ s : String, s ≠ "" → isNumericCodes (codes s) = false →
      priorityNumOf (.str s) = ⟨0, 0⟩) ∧
    (∀ db ps p l sb so r, r ∈ (getAllEntries db ps p l sb so).data → r ∈ db) := by
  refine ⟨⟨?_, ?_, ?_⟩, ⟨?_, ?_, ?_, ?_⟩, ?_, ?_, ?_, ?_⟩
  · norm_num [priorityNumOf, PNum.toRat]
  · norm_num [priorityNumOf, PNum.toRat]
  · norm_num [priorityNumOf, PNum.toRat]
  · have h : priorityNumOf (.str "3.5") = ⟨35, 1⟩ := by decide
    rw [h]
    norm_num [PNum.toRat]
  · have h : priorityNumOf (.str "-2") = ⟨-2, 0⟩ := by decide
    rw [h]
    norm_num [PNum.toRat]
  · have h : priorityNumOf (.str "abc") = ⟨0, 0⟩ := by decide
    rw [h]
    norm_num [PNum.toRat]
  · norm_num [priorityNumOf, PNum.toRat]
  · intro n e
    rfl
  · intro s h1 h2
    simp [priorityNumOf, h1, h2]
  · intro s h1 h2
    simp [priorityNumOf, h1, h2]
  · intro db ps p l sb so r hr
    exact getAllEntries_mem db ps p l sb so r hr

/-- Witness for C4 at concrete inputs: a non-numeric non-empty string
normalizes to 0, and a record returned by `getAllEntries` is a store
record. -/
theorem priority_normalizer_total_witness :
    priorityNumOf (.str "x7") = ⟨0, 0⟩ ∧ blankRec ∈ [blankRec] := by
  constructor
  · exact priority_normalizer_total.2.2.2.2.1 "x7" (by decide) (by decide)
  · exact priority_normalizer_total.2.2.2.2.2 [blankRec] [] none none none none blankRec
      (by decide)

/-- C1: every listing, search and export operation over Records
(`getAllEntries`, `searchEntries`, `getEntriesByDisease`,
`getEntriesByUniprotId`, `exportEntries`) returns a sequence ordered by
normalized priority descending first — whatever sort the caller requested
only breaks ties — and in particular (last conjunct) with records of
priorities 1 and 5 in opposite alphabetical order on the requested sort
field `disease` ascending, the priority-5 record comes first. -/
theorem ranked_retrieval_priority_first :
    (∀ db ps p l sb so, ((getAllEntries db ps p l sb so).data).Pairwise prioDesc) ∧
    (∀ db q f lim, (okList (searchEntries db q f lim)).Pairwise prioDesc) ∧
    (∀ db d, (okList (getEntriesByDisease db d)).Pairwise prioDesc) ∧
    (∀ db u, (okList (getEntriesByUniprotId db u)).Pairwise prioDesc) ∧
    (∀ db ps lim, (exportEntries db ps lim).Pairwise prioDesc) ∧
    (getAllEntries [loPriRec, hiPriRec] [] none none (some "disease") (some "asc")).data =
      [hiPriRec, loPriRec] := by
  refine ⟨?_, ?_, ?_, ?_, ?_, by decide⟩
  · intro db ps p l sb so
    exact pairwise_window (pairwise_prioDesc_rankSort (allEntriesTie_lawful sb so) _) _ _
  · intro db q f lim
    cases q with
    | none => exact List.Pairwise.nil
    | some s =>
      by_cases hb : trimC (codes s) = []
      · simp only [searchEntries, if_pos hb]
        exact List.Pairwise.nil
      · simp only [searchEntries, if_neg hb]
        exact pairwise_take (pairwise_prioDesc_rankSort diseaseAbTie_lawful _) _
  · intro db d
    cases d with
    | none => exact List.Pairwise.nil
    | some s =>
      by_cases hb : trimC (codes s) = []
      · simp only [getEntriesByDisease, if_pos hb]
        exact List.Pairwise.nil
      · simp only [getEntriesByDisease, if_neg hb]
        have htie : LawfulCmp (fun a b : Record =>
            (cmpCodes (codes a.autoantibody) (codes b.autoantibody)).then
              (cmpCodes (codes a.autoantigen) (codes b.autoantigen))) :=
          (cmpCodes_lawful.comap (fun r : Record => codes r.autoantibody)).thenCmp
            (cmpCodes_lawful.comap (fun r : Record => codes r.autoantigen))
        exact pairwise_prioDesc_rankSort htie _
  · intro db u
    cases u with
    | none => exact List.Pairwise.nil
    | some s =>
      by_cases hb : trimC (codes s) = []
      · simp only [getEntriesByUniprotId, if_pos hb]
        exact List.Pairwise.nil
      · simp only [getEntriesByUniprotId, if_neg hb]
        exact pairwise_prioDesc_rankSort diseaseAbTie_lawful _
  · intro db ps lim
    cases lim with
    | none => exact pairwise_prioDesc_rankSort diseaseAbTie_lawful _
    | some lv =>
      by_cases hp : (0 : Int) < lv
      · simp only [exportEntries, if_pos hp]
        exact pairwise_take (pairwise_prioDesc_rankSort diseaseAbTie_lawful _) _
      · simp only [exportEntries, if_neg hp]
        exact pairwise_prioDesc_rankSort diseaseAbTie_lawful _

/-- C7: invalid paging inputs are clamped rather than rejected — the
effective page is `max(1, page)` and the effective limit stays within
1..10000 — and the result is the `(page-1)*limit` / `limit` window over the
ranked matches, with `total` the count of all matches and
`pages = ceil(total / limit)`; concretely, page 2 with limit 10 over 25
matching records returns records 11–20 and reports total 25, 3 pages. -/
theorem pagination_clamps_and_windows :
    (∀ p : Int, effPage (some p) = max 1 p) ∧
    (∀ l : Int, 1 ≤ effLimit (some l) ∧ effLimit (some l) ≤ 10000) ∧
    (∀ db ps p l sb so,
      (getAllEntries db ps p l sb so).data =
        ((rankSort (priorityFirstCmp (allEntriesTie sb so))
          (db.filter (queryMatches (buildCombinedQuery ps)))).drop
            (((effPage p - 1) * effLimit l).toNat)).take (effLimit l).toNat ∧
      (getAllEntries db ps p l sb so).total =
        (db.filter (queryMatches (buildCombinedQuery ps))).length ∧
      (getAllEntries db ps p l sb so).pages =
        ((db.filter (queryMatches (buildCombinedQuery ps))).length +
          (effLimit l).toNat - 1) / (effLimit l).toNat) ∧
    ((getAllEntries db25 [] (some 2) (some 10) none none).data =
      (List.range 10).map (fun i => mkRec25 (10 + i)) ∧
     (getAllEntries db25 [] (some 2) (some 10) none none).total = 25 ∧
     (getAllEntries db25 [] (some 2) (some 10) none none).pages = 3) := by
  refine ⟨?_, ?_, ?_, by decide, by decide, by decide⟩
  · intro p
    show max 1 (if p = 0 then 1 else p) = max 1 p
    by_cases h : p = 0
    · subst h
      decide
    · rw [if_neg h]
  · intro l
    have h1 : effLimit (some l) = min (max 1 (if l = 0 then 10 else l)) 10000 := rfl
    rw [h1]
    by_cases h : l = 0
    · simp [h]
    · rw [if_neg h]
      omega
  · intro db ps p l sb so
    exact ⟨rfl, rfl, rfl⟩

/-- Whether a fallible endpoint answered with an error response. -/
def isErr {α : Type} : Except String α → Bool
  | .error _ => true
  | .ok _ => false

/-- Summing a guarded map is summing the selected weights. -/
theorem sum_map_guard (l : List (FieldId × Int)) (p : FieldId × Int → Bool) :
    (l.map (fun fw => if p fw then fw.2 else 0)).sum =
      ((l.filter p).map Prod.snd).sum := by
  induction l with
  | nil => rfl
  | cons x xs ih => by_cases h : p x = true <;> simp [h, ih]

/-- C6 (counterexample): the claim says a record is included in advanced
search results only if a weighted field matches; but the `$match` `$or`
also spans unweighted fields such as `synonym`, so a record whose only
occurrence of the term is in `synonym` is returned — with every weighted
field failing to match and a relevance score of 0. -/
theorem advanced_search_unweighted_included_cex :
    okList (advancedSearch [synRec] (some "zzq") none) = [synRec] ∧
    advWeights.all (fun fw => !(fieldContainsIfNull synRec fw.1
      (escapeRegex (trimC (codes "zzq"))))) = true ∧
    relevanceScore (escapeRegex (trimC (codes "zzq"))) synRec = 0 := by
  decide

/-- C6 (amended): a record is included in advanced search iff at least one
of the 26 searched fields (weighted or not) contains the term; the
relevance score is the sum of the weights of the matching weighted fields
(disease 10, autoantibody 8, autoantigen 6, diagnosticMarker 5, epitope 4,
diseaseAssociation 3, pathogenesisInvolvement 3, uniprotId 2, reference 1;
a record matching only unweighted fields scores 0); results are the ranked
matches sorted by score descending with ties broken ascending by disease,
capped at `min(limit, 100)`; a record scoring 18 ranks strictly above one
scoring 1 (last conjunct). -/
theorem advanced_search_scoring :
    (∀ (pat : List Nat) (r : Record), advMatch pat r = true ↔
      ∃ f ∈ searchFieldIds, condMatches r (Cond.contains f pat) = true) ∧
    (∀ (pat : List Nat) (r : Record), relevanceScore pat r =
      ((advWeights.filter (fun fw => fieldContainsIfNull r fw.1 pat)).map Prod.snd).sum) ∧
    (∀ db (q : String) lim, 2 ≤ (trimC (codes q)).length →
      okList (advancedSearch db (some q) lim) =
        (rankSort (advCmp (escapeRegex (trimC (codes q))))
          (db.filter (advMatch (escapeRegex (trimC (codes q)))))).take
            (min (lim.getD 50) 100).toNat) ∧
    (∀ db (q : Option String) lim, (okList (advancedSearch db q lim)).Pairwise
      (fun a b => relevanceScore (escapeRegex (trimC (codes (q.getD "")))) b ≤
        relevanceScore (escapeRegex (trimC (codes (q.getD "")))) a)) ∧
    (∀ db (q : Option String) (lim : Option Int),
      (okList (advancedSearch db q lim)).length ≤ (min (lim.getD 50) 100).toNat) ∧
    (okList (advancedSearch [advBRec, advARec] (some "term") none) = [advARec, advBRec] ∧
     relevanceScore (escapeRegex (codes "term")) advARec = 18 ∧
     relevanceScore (escapeRegex (codes "term")) advBRec = 1) := by
  refine ⟨?_, ?_, ?_, ?_, ?_, by decide, by decide, by decide⟩
  · intro pat r
    simp [advMatch, regularSearchConds, List.any_map, List.any_eq_true, Function.comp]
  · intro pat r
    exact sum_map_guard advWeights _
  · intro db q lim h
    simp only [advancedSearch]
    rw [if_neg (not_lt.mpr h)]
    rfl
  · intro db q lim
    cases q with
    | none => exact List.Pairwise.nil
    | some s =>
      by_cases hb : (trimC (codes s)).length < 2
      · simp only [advancedSearch, if_pos hb]
        exact List.Pairwise.nil
      · simp only [advancedSearch, if_neg hb]
        refine pairwise_take ?_ _
        refine (rankSort_pairwise (advCmp_lawful _) _).imp ?_
        intro a b hab
        have h1 := @then_isLE_first
          (cmpI (relevanceScore (escapeRegex (trimC (codes s))) b)
            (relevanceScore (escapeRegex (trimC (codes s))) a))
          (cmpCodes (codes a.disease) (codes b.disease)) hab
        exact cmpI_isLE_iff.mp h1
  · intro db q lim
    cases q with
    | none => exact Nat.zero_le _
    | some s =>
      by_cases hb : (trimC (codes s)).length < 2
      · simp only [advancedSearch, if_pos hb]
        exact Nat.zero_le _
      · simp only [advancedSearch, if_neg hb]
        exact List.length_take_le _ _

/-- Witness for the amended C6 theorem at a concrete input (discharging the
minimum-length hypothesis of the results-shape conjunct). -/
theorem advanced_search_scoring_witness :
    okList (advancedSearch [synRec] (some "zzq") none) =
      (rankSort (advCmp (escapeRegex (trimC (codes "zzq"))))
        ([synRec].filter (advMatch (escapeRegex (trimC (codes "zzq")))))).take
          (min ((none : Option Int).getD 50) 100).toNat :=
  advanced_search_scoring.2.2.1 [synRec] "zzq" none (by decide)

/-- C8: a parameter with a name outside the recognised list never throws
and never affects the predicate `buildCombinedQuery` produces, while the
same unrecognised name passed to `getUniqueValues` is rejected with the
invalid-field error and no data. -/
theorem unknown_filter_field_policy :
    (∀ (k v : String) (ps : SearchParams), k ∉ paramKeys →
      buildCombinedQuery ((k, v) :: ps) = buildCombinedQuery ps) ∧
    (∀ (k : String) (db : List Record), k ∉ validUniqueFields →
      isErr (getUniqueValues db k) = true) := by
  constructor
  · intro k v ps hk
    have hs : ¬ "search" = k := by
      intro h
      exact hk (h ▸ List.mem_cons_self _ _)
    have hf : ¬ "field" = k := by
      intro h
      exact hk (h ▸ List.mem_cons_of_mem _ (List.mem_cons_self _ _))
    have hfil : ∀ nf ∈ filterSpecs, ¬ nf.1 = k := by
      intro nf hnf h
      exact hk (List.mem_cons_of_mem _ (List.mem_cons_of_mem _
        (h ▸ List.mem_map_of_mem Prod.fst hnf)))
    have hsc : searchConds ((k, v) :: ps) = searchConds ps := by
      unfold searchConds
      rw [getParamNB_cons_ne hs, getParam_cons_ne hf]
    have hfc : filterConds ((k, v) :: ps) = filterConds ps := by
      unfold filterConds
      exact List.filterMap_congr (fun nf hnf => by rw [getParamNB_cons_ne (hfil nf hnf)])
    unfold buildCombinedQuery
    rw [hsc, hfc]
  · intro k db hk
    simp [getUniqueValues, isErr, hk]

/-- Witness for C8 at a concrete unknown field name. -/
theorem unknown_filter_field_policy_witness :
    buildCombinedQuery [("banana", "x"), ("disease", "Lupus")] =
      buildCombinedQuery [("disease", "Lupus")] ∧
    isErr (getUniqueValues [] "banana") = true := by
  constructor
  · exact unknown_filter_field_policy.1 "banana" "x" [("disease", "Lupus")] (by decide)
  · exact unknown_filter_field_policy.2 "banana" [] (by decide)

/-- C9: `approveSubmission` errors exactly when the submission is already
approved and `rejectSubmission` exactly when it is already rejected; a
rejected submission is therefore not blocked from approval, and a
successful approval marks the submission approved and creates the verified
Record copied from it. -/
theorem submission_review_transitions :
    (∀ (s : Submission) (rv : String) (nt : Option String) (now : Int),
      isErr (approveSubmission s rv nt now) = true ↔ s.status = .approved) ∧
    (∀ (s : Submission) (rv : String) (nt : Option String) (now : Int),
      isErr (rejectSubmission s rv nt now) = true ↔ s.status = .rejected) ∧
    (∀ (s : Submission) (rv : String) (nt : Option String) (now : Int),
      s.status = .rejected →
        ∃ s' rec, approveSubmission s rv nt now = .ok (s', rec) ∧
          s'.status = .approved ∧ rec = recordOfSubmission s ∧ rec.verified = true) ∧
    (∀ (s : Submission) (rv : String) (nt : Option String) (now : Int) s' rec,
      approveSubmission s rv nt now = .ok (s', rec) →
        s'.status = .approved ∧ rec = recordOfSubmission s) := by
  refine ⟨?_, ?_, ?_, ?_⟩
  · intro s rv nt now
    by_cases h : s.status = .approved <;> simp [approveSubmission, h, isErr]
  · intro s rv nt now
    by_cases h : s.status = .rejected <;> simp [rejectSubmission, h, isErr]
  · intro s rv nt now h
    have hne : ¬ s.status = .approved := by simp [h]
    refine ⟨{ s with
        status := .approved
        reviewedBy := some rv
        reviewedAt := some now
        reviewNote := nt }, recordOfSubmission s, ?_, rfl, rfl, rfl⟩
    unfold approveSubmission
    rw [if_neg hne]
  · intro s rv nt now s' rec hok
    unfold approveSubmission at hok
    by_cases h : s.status = .approved
    · rw [if_pos h] at hok
      exact Except.noConfusion hok
    · rw [if_neg h] at hok
      simp only [Except.ok.injEq, Prod.mk.injEq] at hok
      obtain ⟨h3, h4⟩ := hok
      exact ⟨by rw [← h3], by rw [← h4]⟩

/-- Witness for C9: a rejected submission can be approved. -/
def subRejected : Submission :=
  { disease := "d", autoantibody := "ab", autoantigen := "ag", epitope := "e",
    uniprotId := "U1", reference := "ref", submittedBy := "u1", status := .rejected }

theorem submission_review_transitions_witness :
    ∃ s' rec, approveSubmission subRejected "admin" none 0 = .ok (s', rec) ∧
      s'.status = .approved ∧ rec = recordOfSubmission subRejected ∧
      rec.verified = true :=
  submission_review_transitions.2.2.1 subRejected "admin" none 0 (by decide)

/-- An entry failing the bulk-validation checks: not an object, or one of
the five required fields absent or blank. -/
def entryBad : BulkEntry → Bool
  | .invalid => true
  | .mk d ab ag ep up =>
    reqMissing d || reqMissing ab || reqMissing ag || reqMissing ep || reqMissing up

theorem entryErrors_nil_iff (i : Nat) (e : BulkEntry) :
    entryErrors i e = [] ↔ entryBad e = false := by
  cases e with
  | invalid => simp [entryErrors, entryBad]
  | mk d ab ag ep up =>
    by_cases h1 : reqMissing d = true <;> by_cases h2 : reqMissing ab = true <;>
      by_cases h3 : reqMissing ag = true <;> by_cases h4 : reqMissing ep = true <;>
        by_cases h5 : reqMissing up = true <;>
          simp [entryErrors, entryBad, h1, h2, h3, h4, h5]

theorem validate_enumFrom_nil_iff (l : List BulkEntry) : ∀ n : Nat,
    ((l.enumFrom n).map (fun ie => entryErrors ie.1 ie.2)).flatten = [] ↔
      l.all (fun e => !entryBad e) = true := by
  induction l with
  | nil => intro n; simp
  | cons x xs ih =>
    intro n
    simp [List.enumFrom, ih (n + 1), entryErrors_nil_iff, Bool.not_eq_true']

theorem validateBulkEntries_nil_iff (l : List BulkEntry) :
    validateBulkEntries l = [] ↔ l.all (fun e => !entryBad e) = true := by
  unfold validateBulkEntries
  exact validate_enumFrom_nil_iff l 0

theorem any_bad_iff_not_all (l : List BulkEntry) :
    l.any entryBad = true ↔ ¬ (l.all (fun e => !entryBad e) = true) := by
  rw [List.any_eq_true, List.all_eq_true]
  constructor
  · rintro ⟨x, hx, hb⟩ hall
    have h2 := hall x hx
    rw [hb] at h2
    simp at h2
  · intro h
    by_contra hno
    apply h
    intro x hx
    cases hcb : entryBad x with
    | false => rfl
    | true => exact absurd ⟨x, hx, hcb⟩ hno

/-- C10: `bulkImport` rejects the request and inserts nothing exactly when
the `entries` value is absent, not an array, empty, longer than 1000
entries, or contains an entry failing the required-field validation (a
non-object entry counts as missing every required field); only a batch
passing every check reaches the store. -/
theorem bulk_import_validation :
    (∀ body, isErr (bulkImport body) = true ↔
      (body = .absent ∨ body = .notArray ∨ body = .arr [] ∨
        (∃ l, body = .arr l ∧ (1000 < l.length ∨ l.any entryBad = true)))) ∧
    (∀ l : List BulkEntry, bulkImport (.arr l) = .ok l ↔
      (l ≠ [] ∧ l.length ≤ 1000 ∧ l.all (fun e => !entryBad e) = true)) := by
  constructor
  · intro body
    cases body with
    | absent =>
      constructor
      · intro _
        exact Or.inl rfl
      · intro _
        rfl
    | notArray =>
      constructor
      · intro _
        exact Or.inr (Or.inl rfl)
      · intro _
        rfl
    | arr l =>
      by_cases he : l.isEmpty = true
      · have h0 : l = [] := by simpa using he
        subst h0
        constructor
        · intro _
          exact Or.inr (Or.inr (Or.inl rfl))
        · intro _
          rfl
      · simp only [bulkImport, if_neg he]
        by_cases hlen : l.length > 1000
        · rw [if_pos hlen]
          constructor
          · intro _
            exact Or.inr (Or.inr (Or.inr ⟨l, rfl, Or.inl hlen⟩))
          · intro _
            rfl
        · rw [if_neg hlen]
          by_cases hv : (!(validateBulkEntries l).isEmpty) = true
          · rw [if_pos hv]
            have hbad : l.any entryBad = true := by
              rw [any_bad_iff_not_all]
              intro hall
              have hnil : validateBulkEntries l = [] :=
                (validateBulkEntries_nil_iff l).mpr hall
              simp [hnil] at hv
            constructor
            · intro _
              exact Or.inr (Or.inr (Or.inr ⟨l, rfl, Or.inr hbad⟩))
            · intro _
              rfl
          · rw [if_neg hv]
            have hall : l.all (fun e => !entryBad e) = true := by
              have hnil : validateBulkEntries l = [] := by
                have h5 : (validateBulkEntries l).isEmpty = true := by
                  revert hv
                  cases (validateBulkEntries l).isEmpty <;> simp
                simpa using h5
              exact (validateBulkEntries_nil_iff l).mp hnil
            constructor
            · intro hfalse
              exact absurd hfalse (by simp [isErr])
            · rintro (h | h | h | ⟨l', hl', hcond⟩)
              · exact EntriesVal.noConfusion h
              · exact EntriesVal.noConfusion h
              · injection h with h2
                exact absurd (by simp [h2] : l.isEmpty = true) he
              · injection hl' with h2
                subst h2
                rcases hcond with hc | hc
                · exact absurd hc hlen
                · exact absurd hall ((any_bad_iff_not_all l).mp hc)
  · intro l
    constructor
    · intro hok
      simp only [bulkImport] at hok
      by_cases he : l.isEmpty = true
      · rw [if_pos he] at hok
        exact Except.noConfusion hok
      · rw [if_neg he] at hok
        by_cases hlen : l.length > 1000
        · rw [if_pos hlen] at hok
          exact Except.noConfusion hok
        · rw [if_neg hlen] at hok
          by_cases hv : (!(validateBulkEntries l).isEmpty) = true
          · rw [if_pos hv] at hok
            exact Except.noConfusion hok
          · refine ⟨fun h0 => he (by simp [h0]), not_lt.mp hlen, ?_⟩
            have h5 : (validateBulkEntries l).isEmpty = true := by
              revert hv
              cases (validateBulkEntries l).isEmpty <;> simp
            exact (validateBulkEntries_nil_iff l).mp (by simpa using h5)
    · rintro ⟨h1, h2, h3⟩
      have he : ¬ l.isEmpty = true := by simp [h1]
      have hlen : ¬ l.length > 1000 := not_lt.mpr h2
      have hv : ¬ ((!(validateBulkEntries l).isEmpty) = true) := by
        have hnil : validateBulkEntries l = [] := (validateBulkEntries_nil_iff l).mpr h3
        simp [hnil]
      simp only [bulkImport]
      rw [if_neg he, if_neg hlen, if_neg hv]
